import Mathlib

/-!
# Verification of the Leadgen lead-generation pipeline

A shallow embedding of the core of `backend/services/lead_service.py`
(classes `APIKeyQueue`, `AIICPScorer`, `LeadService`) together with proofs
about the specification claims for this code.

Conventions used throughout:
* Python numbers that participate only in comparisons and simple arithmetic
  are modelled as `ℚ` (scores, percentages) or `ℕ` (counters, seconds, days).
* Python dictionaries are modelled either as Lean structures (when the key
  set is fixed by the source) or as association lists (when the code treats
  them as open records).
* Fallible calls to external services (HTTP, OpenAI, Supabase) are modelled
  as oracle parameters of type `Except`/sum types supplied to the embedded
  functions; the embedded control flow around them is translated from the
  source.
* Wall-clock time is threaded explicitly: `now` in seconds for the session
  tracker, `today` as an abstract day number for the credential pool.
-/

namespace Leadgen

/-! ## Grade bucketing (`AIICPScorer`)

Two distinct bucketings appear in the source:
* the inline chain in `AIICPScorer.analyze_profile`
  (lead_service.py lines 238-251), commented "matching main.py", and
* the helper `AIICPScorer._calculate_grade` (lines 303-320), which is not
  called from the scoring path.
-/

/-- The inline grade chain of `AIICPScorer.analyze_profile`
(lines 238-251 of lead_service.py): thresholds 80/70/60/50/40/30,
no `D+` bucket. -/
def analyzeGradeBucket (score_percentage : ℚ) : String :=
  if score_percentage ≥ 80 then "A+"
  else if score_percentage ≥ 70 then "A"
  else if score_percentage ≥ 60 then "B+"
  else if score_percentage ≥ 50 then "B"
  else if score_percentage ≥ 40 then "C+"
  else if score_percentage ≥ 30 then "C"
  else "D"

/-- `score_percentage = min(100, total_score * 10)` followed by the inline
grade chain: the grade that `analyze_profile` actually attaches to a lead
whose AI response carried the given `total_score` (lines 232-251). -/
def analyzeScoreToGrade (total_score : ℚ) : String :=
  analyzeGradeBucket (min 100 (total_score * 10))

/-- `AIICPScorer._calculate_grade` (lines 303-320 of lead_service.py):
thresholds 90/80/70/60/50/40/30 with a `D+` bucket. -/
def calculate_grade (score_percentage : ℚ) : String :=
  if score_percentage ≥ 90 then "A+"
  else if score_percentage ≥ 80 then "A"
  else if score_percentage ≥ 70 then "B+"
  else if score_percentage ≥ 60 then "B"
  else if score_percentage ≥ 50 then "C+"
  else if score_percentage ≥ 40 then "C"
  else if score_percentage ≥ 30 then "D+"
  else "D"

/-- Bucketing written from the spec's words
(`≥90→A+, ≥80→A, ≥70→B+, ≥60→B, ≥50→C+, ≥40→C, ≥30→D+, else→D`),
for comparison against the two source functions. -/
def specGradeBucket (p : ℚ) : String :=
  if p ≥ 90 then "A+"
  else if p ≥ 80 then "A"
  else if p ≥ 70 then "B+"
  else if p ≥ 60 then "B"
  else if p ≥ 50 then "C+"
  else if p ≥ 40 then "C"
  else if p ≥ 30 then "D+"
  else "D"

/-- C1 counterexample: the claim says a percentage of 89.9 receives grade
"A", but the grade chain actually used by `analyze_profile` (the scoring
path) gives "A+" at percentage 89.9, i.e. at `total_score = 8.99`. -/
theorem C1_counterexample :
    analyzeGradeBucket (899 / 10) = "A+" ∧
    analyzeScoreToGrade (899 / 100) = "A+" ∧
    ("A+" : String) ≠ "A" := by
  refine ⟨by norm_num [analyzeGradeBucket], ?_, by decide⟩
  rw [analyzeScoreToGrade, min_eq_right (by norm_num)]
  norm_num [analyzeGradeBucket]

set_option maxHeartbeats 2000000 in
/-- C1 (amended): the helper `_calculate_grade` buckets exactly as the claim
states (≥90→A+, ≥80→A, ≥70→B+, ≥60→B, ≥50→C+, ≥40→C, ≥30→D+, else D; in
particular 90→A+, 89.9→A, 49.9→C, 29.9→D), but the grade actually produced
by `analyze_profile`'s scoring path uses thresholds one band lower
(`analyzeGradeBucket p = specGradeBucket (p + 10)` for `p ≥ 30`, and "D"
below 30, so there is no D+ grade); in particular percentage 89.9 receives
"A+" from the scoring path. -/
theorem C1_amended_theorem :
    (∀ p : ℚ, calculate_grade p = specGradeBucket p) ∧
    calculate_grade 90 = "A+" ∧ calculate_grade (899 / 10) = "A" ∧
    calculate_grade (499 / 10) = "C" ∧ calculate_grade (299 / 10) = "D" ∧
    (∀ p : ℚ, 30 ≤ p → analyzeGradeBucket p = specGradeBucket (p + 10)) ∧
    (∀ p : ℚ, p < 30 → analyzeGradeBucket p = "D") ∧
    analyzeScoreToGrade (899 / 100) = "A+" := by
  refine ⟨fun p => rfl, by norm_num [calculate_grade], by norm_num [calculate_grade],
    by norm_num [calculate_grade], by norm_num [calculate_grade], ?_, ?_, ?_⟩
  · intro p hp
    unfold analyzeGradeBucket specGradeBucket
    split_ifs <;> first | rfl | linarith
  · intro p hp
    unfold analyzeGradeBucket
    split_ifs <;> first | rfl | linarith
  · rw [analyzeScoreToGrade, min_eq_right (by norm_num)]
    norm_num [analyzeGradeBucket]

/-- Closed witness for `C1_amended_theorem`: its banded conjuncts applied at
percentages 75 and 20. -/
theorem C1_amended_theorem_witness :
    analyzeGradeBucket 75 = specGradeBucket (75 + 10) ∧ analyzeGradeBucket 20 = "D" :=
  ⟨C1_amended_theorem.2.2.2.2.2.1 75 (by norm_num),
   C1_amended_theorem.2.2.2.2.2.2.1 20 (by norm_num)⟩

/-! ## Credential pool (`APIKeyQueue`, lead_service.py lines 18-76, and the
service-level wrappers `get_next_available_key` / `mark_key_exhausted`,
lines 774-793)

`daily_limits` is a Python dict whose entries exist exactly for the queue's
keys and are read with `.get(key, 0)`; it is modelled as a total function
with default 0.  Calendar days are abstract day numbers (`ℕ`); the check
`datetime.now().date() > self.last_reset` becomes `last_reset < today`. -/

structure APIKeyQueue where
  keys : List String
  exhausted_keys : List String
  daily_limits : String → ℕ
  last_reset : ℕ
  total_keys : ℕ

namespace APIKeyQueue

/-- `APIKeyQueue.__init__` (lines 21-28) for a list of keys. -/
def init (ks : List String) (today : ℕ) : APIKeyQueue :=
  { keys := ks
    exhausted_keys := []
    daily_limits := fun _ => 0
    last_reset := today
    total_keys := ks.length }

/-- The lazy daily reset at the top of `get_next_key` (lines 33-36). -/
def resetIfNewDay (today : ℕ) (q : APIKeyQueue) : APIKeyQueue :=
  if q.last_reset < today then
    { q with daily_limits := fun _ => 0, exhausted_keys := [], last_reset := today }
  else q

/-- The rotation loop of `get_next_key` (lines 39-47): up to `fuel` steps,
take the front key, rotate it to the back, and return it (incrementing its
usage) if it is neither exhausted nor at the 100/day cap. -/
def findKey : ℕ → APIKeyQueue → Option String × APIKeyQueue
  | 0, q => (none, q)
  | fuel + 1, q =>
    match q.keys with
    | [] => (none, q)
    | k :: rest =>
      if k ∉ q.exhausted_keys ∧ q.daily_limits k < 100 then
        (some k, { q with keys := rest ++ [k],
                          daily_limits := Function.update q.daily_limits k (q.daily_limits k + 1) })
      else
        findKey fuel { q with keys := rest ++ [k] }

/-- `APIKeyQueue.get_next_key` (lines 30-47): lazy daily reset, then the
rotation loop with `len(self.keys)` iterations. -/
def get_next_key (today : ℕ) (q : APIKeyQueue) : Option String × APIKeyQueue :=
  findKey (resetIfNewDay today q).keys.length (resetIfNewDay today q)

/-- `APIKeyQueue.mark_exhausted` (lines 70-72). -/
def mark_exhausted (k : String) (q : APIKeyQueue) : APIKeyQueue :=
  { q with exhausted_keys := k :: q.exhausted_keys }

end APIKeyQueue

/-- The key-rotation part of `LeadService`'s state: the queue plus the
service-level `exhausted_keys` set and `total_keys` count set up in
`LeadService.__init__` (lines 585-592). -/
structure ServiceKeys where
  token_queue : APIKeyQueue
  exhausted_keys : List String
  total_keys : ℕ

/-- `LeadService.mark_key_exhausted` (lines 788-793): adds the key to the
service-level set and to the queue's set (skipping falsy keys). -/
def mark_key_exhausted (k : String) (s : ServiceKeys) : ServiceKeys :=
  if k = "" then s
  else
    { s with
      exhausted_keys := k :: s.exhausted_keys
      token_queue := s.token_queue.mark_exhausted k }

/-- The retry loop of `LeadService.get_next_available_key` (lines 779-786):
up to `fuel` calls to `get_next_key`, returning the first truthy key that is
not in the service-level exhausted set. -/
def nextAvailableLoop (today : ℕ) : ℕ → ServiceKeys → Option String × ServiceKeys
  | 0, s => (none, s)
  | fuel + 1, s =>
    match s.token_queue.get_next_key today with
    | (some k, q') =>
      if k ≠ "" ∧ k ∉ s.exhausted_keys then (some k, { s with token_queue := q' })
      else nextAvailableLoop today fuel { s with token_queue := q' }
    | (none, q') => nextAvailableLoop today fuel { s with token_queue := q' }

/-- `LeadService.get_next_available_key` (lines 774-786): loops
`token_queue.total_keys` times. -/
def get_next_available_key (today : ℕ) (s : ServiceKeys) : Option String × ServiceKeys :=
  nextAvailableLoop today s.token_queue.total_keys s

/-! ### List helpers for the usage-sum invariant -/

lemma sum_map_update_mem {l : List String} {f : String → ℕ} {k : String}
    (hk : k ∈ l) (hnd : l.Nodup) :
    (l.map (Function.update f k (f k + 1))).sum = (l.map f).sum + 1 := by
  induction l with
  | nil => cases hk
  | cons a t ih =>
    rcases List.mem_cons.mp hk with rfl | hkt
    · have ht : ∀ x ∈ t, Function.update f k (f k + 1) x = f x := by
        intro x hx
        have hxk : x ≠ k := fun h => (List.nodup_cons.mp hnd).1 (h ▸ hx)
        simp [Function.update, hxk]
      simp only [List.map_cons, List.sum_cons, List.map_congr_left ht,
        Function.update_same]
      omega
    · have hak : a ≠ k := fun h => (List.nodup_cons.mp hnd).1 (h ▸ hkt)
      simp only [List.map_cons, List.sum_cons,
        ih hkt (List.nodup_cons.mp hnd).2, Function.update, hak]
      simp [dif_neg hak]
      omega

lemma sum_map_le {l : List String} {f : String → ℕ} {c : ℕ}
    (h : ∀ x ∈ l, f x ≤ c) : (l.map f).sum ≤ c * l.length := by
  induction l with
  | nil => simp
  | cons a t ih =>
    have := h a (List.mem_cons_self a t)
    have := ih (fun x hx => h x (List.mem_cons_of_mem a hx))
    simp only [List.map_cons, List.sum_cons, List.length_cons]
    nlinarith

lemma all_eq_of_sum_map_eq {l : List String} {f : String → ℕ} {c : ℕ}
    (hle : ∀ x ∈ l, f x ≤ c) (hsum : (l.map f).sum = c * l.length) :
    ∀ x ∈ l, f x = c := by
  induction l with
  | nil => intro x hx; cases hx
  | cons a t ih =>
    have h1 := hle a (List.mem_cons_self a t)
    have h2 : ∀ x ∈ t, f x ≤ c := fun x hx => hle x (List.mem_cons_of_mem a hx)
    have h3 := sum_map_le h2
    simp only [List.map_cons, List.sum_cons, List.length_cons] at hsum
    have hfa : f a = c := by nlinarith
    have hts : (t.map f).sum = c * t.length := by nlinarith
    intro x hx
    rcases List.mem_cons.mp hx with rfl | hxt
    · exact hfa
    · exact ih h2 hts x hxt

lemma exists_lt_of_sum_map_lt {l : List String} {f : String → ℕ} {c : ℕ}
    (hle : ∀ x ∈ l, f x ≤ c) (hsum : (l.map f).sum < c * l.length) :
    ∃ x ∈ l, f x < c := by
  by_contra h
  push_neg at h
  have : ∀ x ∈ l, f x = c := fun x hx => le_antisymm (hle x hx) (h x hx)
  have : (l.map f).sum = c * l.length := by
    rw [List.map_congr_left (fun x hx => this x hx)]
    simp [List.map_const', mul_comm]
  omega

/-! ### Behaviour of `findKey` -/

namespace APIKeyQueue

lemma findKey_none_spec : ∀ (fuel : ℕ) (q q' : APIKeyQueue),
    findKey fuel q = (none, q') →
    q'.keys.Perm q.keys ∧ q'.exhausted_keys = q.exhausted_keys ∧
    q'.daily_limits = q.daily_limits ∧ q'.last_reset = q.last_reset := by
  intro fuel
  induction fuel with
  | zero =>
    intro q q' h
    obtain rfl : q = q' := congrArg Prod.snd h
    exact ⟨List.Perm.refl _, rfl, rfl, rfl⟩
  | succ n ih =>
    intro q q' h
    rw [findKey] at h
    split at h
    · obtain rfl : q = q' := congrArg Prod.snd h
      exact ⟨List.Perm.refl _, rfl, rfl, rfl⟩
    · rename_i k rest hk
      split at h
      · exact absurd (congrArg Prod.fst h) (by simp)
      · obtain ⟨hp, he, hd, hl⟩ := ih _ _ h
        exact ⟨hk ▸ (hp.trans (List.perm_append_singleton k rest)), he, hd, hl⟩

lemma findKey_some_spec : ∀ (fuel : ℕ) (q : APIKeyQueue) (k : String) (q' : APIKeyQueue),
    findKey fuel q = (some k, q') →
    k ∈ q.keys ∧ k ∉ q.exhausted_keys ∧ q.daily_limits k < 100 ∧
    q'.keys.Perm q.keys ∧ q'.exhausted_keys = q.exhausted_keys ∧
    q'.daily_limits = Function.update q.daily_limits k (q.daily_limits k + 1) ∧
    q'.last_reset = q.last_reset := by
  intro fuel
  induction fuel with
  | zero =>
    intro q k q' h
    exact absurd (congrArg Prod.fst h) (by simp [findKey])
  | succ n ih =>
    intro q k q' h
    rw [findKey] at h
    split at h
    · exact absurd (congrArg Prod.fst h) (by simp)
    · rename_i k0 rest hk
      split at h
      · rename_i hc
        have h1 : k0 = k := by simpa using congrArg Prod.fst h
        subst h1
        obtain rfl : _ = q' := congrArg Prod.snd h
        refine ⟨hk ▸ List.mem_cons_self _ _, hc.1, hc.2, ?_, rfl, rfl, rfl⟩
        exact hk ▸ List.perm_append_singleton k0 rest
      · obtain ⟨hmem, hne, hlt, hp, he, hd, hl⟩ := ih _ _ _ h
        simp only at hmem hne hlt hp he hd hl
        refine ⟨?_, hne, hlt, ?_, he, hd, hl⟩
        · rw [hk]
          rcases List.mem_append.mp hmem with h1 | h1
          · exact List.mem_cons_of_mem _ h1
          · simp only [List.mem_singleton] at h1
            exact h1 ▸ List.mem_cons_self _ _
        · exact hk ▸ (hp.trans (List.perm_append_singleton k0 rest))

lemma findKey_isSome : ∀ (fuel : ℕ) (q : APIKeyQueue),
    (∃ k ∈ q.keys.take fuel, k ∉ q.exhausted_keys ∧ q.daily_limits k < 100) →
    (findKey fuel q).1.isSome := by
  intro fuel
  induction fuel with
  | zero =>
    intro q ⟨k, hk, _⟩
    simp at hk
  | succ n ih =>
    intro q ⟨k, hk, hcond⟩
    rw [findKey]
    split
    · rename_i hq
      rw [hq] at hk
      simp at hk
    · rename_i k0 rest hq
      split
      · rfl
      · rename_i hc
        apply ih
        refine ⟨k, ?_, hcond⟩
        rw [hq] at hk
        have hk0 : k ≠ k0 := by
          rintro rfl
          exact hc hcond
        have hkt : k ∈ rest.take n :=
          (List.mem_cons.mp (by simpa using hk)).resolve_left hk0
        show k ∈ (rest ++ [k0]).take n
        rw [List.take_append_eq_append_take]
        exact List.mem_append_left _ hkt

lemma findKey_none_of_all : ∀ (fuel : ℕ) (q : APIKeyQueue),
    (∀ k ∈ q.keys, k ∈ q.exhausted_keys ∨ 100 ≤ q.daily_limits k) →
    (findKey fuel q).1 = none := by
  intro fuel
  induction fuel with
  | zero => intro q _; rfl
  | succ n ih =>
    intro q hall
    rw [findKey]
    split
    · rfl
    · rename_i k0 rest hq
      have hk0 := hall k0 (hq ▸ List.mem_cons_self _ _)
      have hcond : ¬(k0 ∉ q.exhausted_keys ∧ q.daily_limits k0 < 100) := by
        rcases hk0 with h | h
        · exact fun hc => hc.1 h
        · exact fun hc => absurd hc.2 (not_lt.mpr h)
      rw [if_neg hcond]
      apply ih
      intro k hk
      simp only at hk
      apply hall
      rw [hq]
      rcases List.mem_append.mp hk with h1 | h1
      · exact List.mem_cons_of_mem _ h1
      · simp only [List.mem_singleton] at h1
        exact h1 ▸ List.mem_cons_self _ _

end APIKeyQueue

/-! ### The pool invariant: usage sum tracks successful acquisitions -/

namespace APIKeyQueue

/-- Invariant holding after `s` successful same-day acquisitions from a
fresh pool whose distinct keys are a permutation of `orig`. -/
structure PoolInv (orig : List String) (d s : ℕ) (q : APIKeyQueue) : Prop where
  perm : q.keys.Perm orig
  nodup : q.keys.Nodup
  exh : q.exhausted_keys = []
  cap : ∀ k ∈ q.keys, q.daily_limits k ≤ 100
  total : (q.keys.map q.daily_limits).sum = s
  day : q.last_reset = d

lemma poolInv_init (ks : List String) (d : ℕ) (h : ks.Nodup) :
    PoolInv ks d 0 (init ks d) := by
  refine ⟨List.Perm.refl _, h, rfl, ?_, ?_, rfl⟩
  · intro k _
    norm_num [init]
  · simp [init]

lemma resetIfNewDay_same {q : APIKeyQueue} {d : ℕ} (h : q.last_reset = d) :
    resetIfNewDay d q = q := by
  rw [resetIfNewDay, if_neg]
  omega

lemma get_next_key_step {orig : List String} {d s : ℕ} {q : APIKeyQueue}
    (hinv : PoolInv orig d s q) (hs : s < 100 * orig.length) :
    ∃ k q', q.get_next_key d = (some k, q') ∧ PoolInv orig d (s + 1) q' := by
  have hlen : q.keys.length = orig.length := hinv.perm.length_eq
  obtain ⟨k, hk, hlt⟩ : ∃ k ∈ q.keys, q.daily_limits k < 100 := by
    apply exists_lt_of_sum_map_lt hinv.cap
    rw [hinv.total, hlen]
    exact hs
  have hsome : ((q.get_next_key d).1).isSome := by
    rw [get_next_key, resetIfNewDay_same hinv.day]
    apply findKey_isSome
    rw [List.take_length]
    exact ⟨k, hk, by simp [hinv.exh], hlt⟩
  rcases hres : q.get_next_key d with ⟨k?, q'⟩
  rw [hres] at hsome
  obtain ⟨k', rfl⟩ := Option.isSome_iff_exists.mp hsome
  have hfk : findKey q.keys.length q = (some k', q') := by
    rw [get_next_key, resetIfNewDay_same hinv.day] at hres
    exact hres
  obtain ⟨hmem, _, hlt', hp, he, hd, hl⟩ := findKey_some_spec _ _ _ _ hfk
  refine ⟨k', q', rfl, ?_⟩
  have hmem' : k' ∈ q'.keys := hp.mem_iff.mpr hmem
  have hnd' : q'.keys.Nodup := hp.nodup_iff.mpr hinv.nodup
  refine ⟨hp.trans hinv.perm, hnd', he.trans hinv.exh, ?_, ?_, hl.trans hinv.day⟩
  · intro x hx
    rw [hd]
    by_cases hxk : x = k'
    · subst hxk
      rw [Function.update_same]
      omega
    · rw [Function.update_noteq hxk]
      exact hinv.cap x (hp.mem_iff.mp hx)
  · rw [hd, sum_map_update_mem hmem' hnd', (hp.map q.daily_limits).sum_eq, hinv.total]

lemma get_next_key_exhausted {orig : List String} {d : ℕ} {q : APIKeyQueue}
    (hinv : PoolInv orig d (100 * orig.length) q) :
    (q.get_next_key d).1 = none := by
  have hall : ∀ k ∈ q.keys, q.daily_limits k = 100 :=
    all_eq_of_sum_map_eq hinv.cap (by rw [hinv.total, hinv.perm.length_eq])
  rw [get_next_key, resetIfNewDay_same hinv.day]
  exact findKey_none_of_all _ _ (fun k hk => Or.inr (le_of_eq (hall k hk).symm))

end APIKeyQueue

/-- Iterate `get_next_key` `n` times on one day, collecting the results. -/
def acquireRun (today : ℕ) : ℕ → APIKeyQueue → List (Option String) × APIKeyQueue
  | 0, q => ([], q)
  | n + 1, q =>
    match q.get_next_key today with
    | (r, q1) =>
      match acquireRun today n q1 with
      | (rs, q2) => (r :: rs, q2)

lemma acquireRun_spec : ∀ (n : ℕ) {orig : List String} {d s : ℕ} {q : APIKeyQueue},
    APIKeyQueue.PoolInv orig d s q → s + n ≤ 100 * orig.length →
    (∀ r ∈ (acquireRun d n q).1, r.isSome) ∧
    APIKeyQueue.PoolInv orig d (s + n) (acquireRun d n q).2 := by
  intro n
  induction n with
  | zero =>
    intro orig d s q hinv _
    exact ⟨by simp [acquireRun], by simpa using hinv⟩
  | succ m ih =>
    intro orig d s q hinv hle
    obtain ⟨k, q', hstep, hinv'⟩ := APIKeyQueue.get_next_key_step hinv (by omega)
    have hrw : acquireRun d (m + 1) q =
        ((acquireRun d m q').1.cons (some k), (acquireRun d m q').2) := by
      rw [acquireRun, hstep]
    obtain ⟨hall, hinv''⟩ := ih hinv' (by omega)
    rw [hrw]
    constructor
    · intro r hr
      rcases List.mem_cons.mp hr with rfl | hr'
      · rfl
      · exact hall r hr'
    · have : s + 1 + m = s + (m + 1) := by omega
      exact this ▸ hinv''

/-- After any calendar-day rollover, the very next `get_next_key` succeeds
with the front key, whatever the previous day's usage and exhaustion flags
were: the reset clears both. -/
lemma get_next_key_rollover {q : APIKeyQueue} {today : ℕ} {k : String} {rest : List String}
    (hkeys : q.keys = k :: rest) (hroll : q.last_reset < today) :
    (q.get_next_key today).1 = some k := by
  rw [APIKeyQueue.get_next_key, APIKeyQueue.resetIfNewDay, if_pos hroll]
  simp only [hkeys, List.length_cons, APIKeyQueue.findKey]
  rw [if_pos (by simp)]

lemma nextAvailableLoop_ne_exhausted : ∀ (fuel : ℕ) (s : ServiceKeys) (today : ℕ) (k : String),
    k ∈ s.exhausted_keys → (nextAvailableLoop today fuel s).1 ≠ some k := by
  intro fuel
  induction fuel with
  | zero =>
    intro s today k _ h
    cases h
  | succ n ih =>
    intro s today k hk
    rw [nextAvailableLoop]
    rcases hres : s.token_queue.get_next_key today with ⟨k?, q'⟩
    cases k? with
    | some k0 =>
      dsimp only
      by_cases hc : k0 ≠ "" ∧ k0 ∉ s.exhausted_keys
      · rw [if_pos hc]
        intro h
        obtain rfl : k0 = k := by simpa using h
        exact hc.2 hk
      · rw [if_neg hc]
        exact ih _ today k hk
    | none =>
      dsimp only
      exact ih _ today k hk

/-- C4 counterexample: one credential `"k"`; mark it exhausted through the
service-level `mark_key_exhausted`, then roll the calendar over to the next
day.  The queue-level `get_next_key` succeeds again (its counters and flags
were cleared), but `get_next_available_key` — the acquisition the pipeline
actually uses — still returns `None`, because the service-level
`exhausted_keys` set is never reset.  The claim says acquisition succeeds
again for such credentials. -/
theorem C4_counterexample :
    (get_next_available_key 1 (mark_key_exhausted "k"
      { token_queue := APIKeyQueue.init ["k"] 0, exhausted_keys := [], total_keys := 1 })).1
      = none ∧
    ((mark_key_exhausted "k"
      { token_queue := APIKeyQueue.init ["k"] 0, exhausted_keys := [], total_keys := 1 })
      |>.token_queue.get_next_key 1).1 = some "k" := by
  constructor <;> rfl

/-- C4 (amended): (1) for a fresh pool of distinct keys, all of the first
`N × 100` same-day `get_next_key` acquisitions succeed and the next one
returns `None`; (2) after a calendar-day rollover the lazy reset clears all
usage counters and queue-level exhaustion flags, so `get_next_key` succeeds
again from any prior state; but (3) a credential in the service-level
`exhausted_keys` set (populated by `mark_key_exhausted`) is never returned
by `get_next_available_key`, even after a rollover, because that set is
never cleared. -/
theorem C4_amended_theorem :
    (∀ (ks : List String) (d : ℕ), ks.Nodup →
      (∀ r ∈ (acquireRun d (100 * ks.length) (APIKeyQueue.init ks d)).1, r.isSome) ∧
      ((acquireRun d (100 * ks.length) (APIKeyQueue.init ks d)).2.get_next_key d).1 = none) ∧
    (∀ (q : APIKeyQueue) (today : ℕ) (k : String) (rest : List String),
      q.keys = k :: rest → q.last_reset < today → (q.get_next_key today).1 = some k) ∧
    (∀ (s : ServiceKeys) (today : ℕ) (k : String),
      k ∈ s.exhausted_keys → (get_next_available_key today s).1 ≠ some k) := by
  refine ⟨?_, ?_, ?_⟩
  · intro ks d hnd
    obtain ⟨hall, hinv⟩ := acquireRun_spec (100 * ks.length)
      (APIKeyQueue.poolInv_init ks d hnd) (by omega)
    exact ⟨hall, APIKeyQueue.get_next_key_exhausted (by simpa using hinv)⟩
  · intro q today k rest hkeys hroll
    exact get_next_key_rollover hkeys hroll
  · intro s today k hk
    exact nextAvailableLoop_ne_exhausted _ _ _ _ hk

/-- Closed witness for `C4_amended_theorem`: the three parts applied to the
one-key pool `["k"]` with rollover from day 0 to day 1. -/
theorem C4_amended_theorem_witness :
    ((acquireRun 0 100 (APIKeyQueue.init ["k"] 0)).2.get_next_key 0).1 = none ∧
    ((APIKeyQueue.init ["k"] 0).get_next_key 1).1 = some "k" ∧
    (get_next_available_key 1
      { token_queue := APIKeyQueue.init ["k"] 1, exhausted_keys := ["k"], total_keys := 1 }).1
      ≠ some "k" :=
  ⟨by simpa using (C4_amended_theorem.1 ["k"] 0 (by simp)).2,
   C4_amended_theorem.2.1 (APIKeyQueue.init ["k"] 0) 1 "k" [] rfl (by norm_num [APIKeyQueue.init]),
   C4_amended_theorem.2.2 _ 1 "k" (by simp)⟩

/-! ## Session tracking (`status_sessions`, lead_service.py lines 1958-2075)

The Python session dict carries more fields (`status`, `message`,
`progress`, `total`, `error`, plus every key of the last emitted status
merged in for backward compatibility); the model keeps exactly the fields
the tracker's control flow reads or that the claims mention.  Event
payloads beyond `timestamp`/`type`/`message` are likewise projected away.
Wall-clock time is threaded as `now : ℕ` (seconds). -/

structure Event where
  timestamp : ℕ
  type : String
  message : String
deriving DecidableEq

structure Session where
  created_at : ℕ
  active : Bool
  completed : Bool
  status_history : List Event
  current_status : Option Event
  completion_timestamp : Option ℕ
deriving DecidableEq

/-- `self.status_sessions`: a Python dict, modelled as an association list
in insertion order. -/
abbrev Registry := List (String × Session)

def lookupSession (reg : Registry) (sid : String) : Option Session :=
  (List.find? (fun p => p.1 == sid) reg).map Prod.snd

/-- Dict assignment `self.status_sessions[sid] = s`: overwrite in place if
present, append otherwise. -/
def setSession (reg : Registry) (sid : String) (s : Session) : Registry :=
  if List.any reg (fun p => p.1 == sid) then
    List.map (fun p => if p.1 == sid then (sid, s) else p) reg
  else reg ++ [(sid, s)]

/-- `LeadService.create_status_session` (lines 1958-1973). -/
def create_status_session (sid : String) (now : ℕ) (reg : Registry) : Registry :=
  setSession reg sid
    { created_at := now
      active := true
      completed := false
      status_history := []
      current_status := none
      completion_timestamp := none }

/-- The per-session update `emit_status` performs (lines 1980-1997):
append the event, replace the current status, and flip the completion
flags when its type is terminal. -/
def applyEvent (s : Session) (ev : Event) : Session :=
  let s1 : Session :=
    { s with status_history := s.status_history ++ [ev], current_status := some ev }
  if ev.type = "generation_completed" ∨ ev.type = "error" then
    { s1 with completed := true, active := false }
  else s1

/-- `LeadService.emit_status` (lines 1975-2002): no-op for unknown
sessions; otherwise apply the timestamped event to the session. -/
def emit_status (sid : String) (etype emsg : String) (now : ℕ) (reg : Registry) : Registry :=
  match lookupSession reg sid with
  | none => reg
  | some s => setSession reg sid (applyEvent s { timestamp := now, type := etype, message := emsg })

/-- The eviction condition of `_cleanup_old_sessions` (lines 2067-2071):
completed, with a recorded completion timestamp more than 300 seconds old. -/
def sessionExpired (now : ℕ) (s : Session) : Bool :=
  s.completed &&
    (match s.completion_timestamp with
     | some t => decide (300 < now - t)
     | none => false)

/-- `LeadService._cleanup_old_sessions` (lines 2062-2075). -/
def cleanup_old_sessions (now : ℕ) (reg : Registry) : Registry :=
  List.filter (fun p => !(sessionExpired now p.2)) reg

/-- The value `get_status` returns: the "not found" record, the full
session data (`include_history=True`), the current status plus session
metadata, or the fallback copy without history (lines 2011-2051). -/
inductive StatusResult where
  | notFound
  | fullData (s : Session)
  | currentData (current : Event) (sid : String) (active completed : Bool)
  | fallbackData (s : Session)
deriving DecidableEq

/-- `LeadService.get_status` (lines 2004-2060): sweep first, then look up;
record `completion_timestamp` on the first access of a completed session. -/
def get_status (sid : String) (includeHistory : Bool) (now : ℕ) (reg : Registry) :
    StatusResult × Registry :=
  let reg1 := cleanup_old_sessions now reg
  match lookupSession reg1 sid with
  | none => (.notFound, reg1)
  | some s =>
    let res : StatusResult :=
      if includeHistory then .fullData s
      else
        match s.current_status with
        | some ev => .currentData ev sid s.active s.completed
        | none => .fallbackData s
    let reg2 :=
      if s.completed = true ∧ s.completion_timestamp = none then
        setSession reg1 sid { s with completion_timestamp := some now }
      else reg1
    (res, reg2)

lemma lookup_cleanup_of_expired {reg : Registry} {sid : String} {s : Session} {now : ℕ}
    (hnd : (reg.map Prod.fst).Nodup)
    (hl : lookupSession reg sid = some s) (hexp : sessionExpired now s = true) :
    lookupSession (cleanup_old_sessions now reg) sid = none := by
  induction reg with
  | nil => cases hl
  | cons p rest ih =>
    by_cases hp : p.1 = sid
    · have hfind : List.find? (fun q => q.1 == sid) (p :: rest) = some p :=
        List.find?_cons_of_pos _ (by simp [hp])
      have hs : s = p.2 := by
        rw [lookupSession, hfind] at hl
        simpa using hl.symm
      have hdrop : (sessionExpired now p.2) = true := hs ▸ hexp
      have hnot : sid ∉ rest.map Prod.fst := by
        rw [← hp]
        exact (List.nodup_cons.mp hnd).1
      rw [cleanup_old_sessions, List.filter_cons, if_neg (by simp [hdrop])]
      have hfn : List.find? (fun q => q.1 == sid)
          (List.filter (fun p => !(sessionExpired now p.2)) rest) = none := by
        apply List.find?_eq_none.mpr
        intro q hq
        simp only [beq_iff_eq]
        intro hcontra
        exact hnot (hcontra ▸ List.mem_map_of_mem Prod.fst (List.mem_of_mem_filter hq))
      rw [lookupSession, hfn]
      rfl
    · have hstep : lookupSession (p :: rest) sid = lookupSession rest sid := by
        rw [lookupSession, List.find?_cons_of_neg _ (by simp [hp]), lookupSession]
      rw [hstep] at hl
      have htail := ih (List.nodup_cons.mp hnd).2 hl
      rw [cleanup_old_sessions, List.filter_cons]
      by_cases hkeep : (!(sessionExpired now p.2)) = true
      · rw [if_pos hkeep, lookupSession, List.find?_cons_of_neg _ (by simp [hp])]
        exact htail
      · rw [if_neg hkeep]
        exact htail

/-- C3 counterexample: a session that reaches its terminal event at time 0
and is then left untouched until time 1000 — far beyond the 300-second TTL
— is NOT evicted by the sweep of the next status access, and that
`get_status` does not return "not found": eviction requires a
`completion_timestamp`, which is only recorded by a status access after
completion, never by the terminal event itself. -/
theorem C3_counterexample :
    lookupSession
      (cleanup_old_sessions 1000
        (emit_status "s" "generation_completed" "done" 0
          (create_status_session "s" 0 []))) "s" ≠ none ∧
    (get_status "s" false 1000
      (emit_status "s" "generation_completed" "done" 0
        (create_status_session "s" 0 []))).1 ≠ StatusResult.notFound := by
  constructor <;> decide

/-- C3 (amended): eviction is keyed to the recorded completion timestamp,
which is written by the first status access after completion rather than by
the terminal event.  Once a completed session's recorded timestamp is more
than 300 seconds in the past, the next status access's sweep removes it and
that same `get_status` call returns "not found". -/
theorem C3_amended_theorem (reg : Registry) (sid : String) (s : Session)
    (includeHistory : Bool) (now t : ℕ)
    (hnd : (reg.map Prod.fst).Nodup)
    (hl : lookupSession reg sid = some s)
    (hc : s.completed = true)
    (ht : s.completion_timestamp = some t)
    (httl : 300 < now - t) :
    (get_status sid includeHistory now reg).1 = StatusResult.notFound ∧
    lookupSession (get_status sid includeHistory now reg).2 sid = none := by
  have hexp : sessionExpired now s = true := by
    simp [sessionExpired, hc, ht, httl]
  have h1 := lookup_cleanup_of_expired hnd hl hexp
  rw [get_status]
  simp only [h1]
  exact ⟨by trivial, by trivial⟩

/-- Closed witness for `C3_amended_theorem`: a one-session registry whose
completion timestamp 0 is 301 seconds old. -/
theorem C3_amended_theorem_witness :
    (get_status "s" false 301
      [("s", ⟨0, false, true, [], none, some 0⟩)]).1 = StatusResult.notFound ∧
    lookupSession (get_status "s" false 301
      [("s", ⟨0, false, true, [], none, some 0⟩)]).2 "s" = none :=
  C3_amended_theorem [("s", ⟨0, false, true, [], none, some 0⟩)] "s"
    ⟨0, false, true, [], none, some 0⟩ false 301 0
    (by decide) (by decide) rfl rfl (by norm_num)

/-! ## AI ICP scoring (`AIICPScorer.analyze_profile`, lines 125-301)

The OpenAI call and JSON parse are modelled by an `AIOutcome` oracle: the
call raising, `json.loads` failing, or a parsed score record.  In the
parsed record each numeric field is `Option ℚ`: `none` covers both a
missing field and a non-numeric value, which the source treats identically
(both are replaced by the neutral 5.0). -/

/-- Python's `str.replace('{','{{').replace('}','}}')` used on error
messages before embedding them in f-strings (lines 289, 689, 764). -/
def pyBraceEscape (s : String) : String :=
  (s.replace "\x7b" "\x7b\x7b").replace "\x7d" "\x7d\x7d"

/-- Python's `round(x, 2)`: round half to even at two decimal places. -/
def pyRound2 (x : ℚ) : ℚ :=
  let y := x * 100
  let f := ⌊y⌋
  let frac := y - f
  let r : ℤ :=
    if 1 / 2 < frac then f + 1
    else if frac < 1 / 2 then f
    else if f % 2 = 0 then f else f + 1
  (r : ℚ) / 100

structure AIScores where
  industry_fit : Option ℚ
  role_fit : Option ℚ
  company_size_fit : Option ℚ
  company_maturity_fit : Option ℚ
  decision_maker : Option ℚ
  total_score : Option ℚ
  reasoning : Option String
deriving DecidableEq

inductive AIOutcome where
  | raise (msg : String)
  | badJson
  | ok (scores : AIScores)
deriving DecidableEq

/-- The validation of one score field (lines 211-229): a missing (or
non-numeric) value becomes 5.0, an out-of-range value becomes 5.0, and the
final `max(0, min(10, float(...)))` is then a no-op. -/
def clampScore (v? : Option ℚ) : ℚ :=
  match v? with
  | none => 5
  | some v => if v < 0 ∨ 10 < v then 5 else v

/-- The ICP breakdown attached to a lead: the full sub-score record built
by `analyze_profile`, or the reasoning-only record built by the fallback in
`generate_leads` (line 690). -/
inductive Breakdown where
  | subs (industry role size dm : ℚ) (reasoning : String)
  | reasonOnly (reasoning : String)
deriving DecidableEq

structure ICPOut where
  icp_score : ℚ
  icp_percentage : ℚ
  icp_grade : String
  icp_breakdown : Breakdown
deriving DecidableEq

/-- The neutral default result returned by `analyze_profile` on any
internal failure (lines 129-141, 273-284, 290-301). -/
def icpDefault (reasoning : String) : ICPOut :=
  ⟨50, 50, "C", .subs 5 5 5 5 reasoning⟩

/-- `AIICPScorer.analyze_profile` (lines 125-301) as a function of the
configured flag and the AI-call outcome. -/
def analyze_profile (openaiConfigured : Bool) (outcome : AIOutcome) : ICPOut :=
  if !openaiConfigured then icpDefault "OpenAI not configured"
  else
    match outcome with
    | .raise msg => icpDefault ("Error: " ++ pyBraceEscape msg)
    | .badJson => icpDefault "JSON parsing error"
    | .ok scores =>
      let size? : Option ℚ :=
        match scores.company_size_fit with
        | some v => some v
        | none => scores.company_maturity_fit
      let total := clampScore scores.total_score
      let pct := min 100 (total * 10)
      { icp_score := pyRound2 total
        icp_percentage := pyRound2 pct
        icp_grade := analyzeGradeBucket pct
        icp_breakdown := .subs (clampScore scores.industry_fit) (clampScore scores.role_fit)
          (clampScore size?) (clampScore scores.decision_maker)
          (scores.reasoning.getD "Default reasoning") }

/-! ## The orchestrator (`LeadService.generate_leads`, lines 604-772)

A lead's profile payload is only ever passed onward to the oracles, so the
model's `Lead` keeps just the state `generate_leads` itself writes: the
attached ICP result.  The search adapters, the per-lead AI call and the
database save are oracles; their `Except.error` case models the "exception
path" of the orchestrator's outer `try`/`except` (the source adapter and
save functions catch internally, so in the deployed code that path can
only be reached by failures outside those calls).  Event messages carry
abbreviated text where the source interpolates runtime values; event types
and ordering are faithful. -/

structure Lead where
  scored : Option ICPOut
deriving DecidableEq

structure GenParams where
  method : Option String
  jobTitles : List String
  locations : List String
deriving DecidableEq

inductive ExtCall where
  | apolloSearch
  | googleSearch
  | saveCall
deriving DecidableEq

/-- The parts of the `_save_leads_to_db` result that `generate_leads`
reads: `save_result['message']` and `stats.successful`. -/
structure SaveOutcome where
  message : String
  successful : ℕ
deriving DecidableEq

inductive GenResult where
  | error (message : String)
  | success (count : ℕ) (message : String)
deriving DecidableEq

structure GenEnv where
  openaiKey : Bool
  apolloSearch : Except String (List Lead)
  googleSearch : Except String (List Lead)
  scoreCall : ℕ → Except String AIOutcome
  save : Except String SaveOutcome

/-- The per-lead fallback of the scoring loop's `except` branch
(lines 683-690). -/
def scoringFallback (e : String) : ICPOut :=
  ⟨50, 50, "C", .reasonOnly ("Error in AI scoring: " ++ pyBraceEscape e)⟩

/-- The `if session_id: self.emit_status(...)` pattern used throughout
`generate_leads`; the session id is normalised for truthiness once at
entry (the source re-tests the same immutable value at each site). -/
def maybeEmit (sid? : Option String) (t m : String) (now : ℕ) (reg : Registry) : Registry :=
  match sid? with
  | some sid => emit_status sid t m now reg
  | none => reg

/-- The scoring loop of `generate_leads` (lines 675-702): score each lead
in order, substituting the fallback when the call raises, and emit a
`lead_scored` event per lead. -/
def scoreLoop (env : GenEnv) (sid? : Option String) (now : ℕ) :
    List Lead → ℕ → Registry → List Lead × Registry
  | [], _, reg => ([], reg)
  | _ :: rest, idx, reg =>
    let scored : ICPOut :=
      match env.scoreCall idx with
      | .ok outcome => analyze_profile true outcome
      | .error e => scoringFallback e
    match scoreLoop env sid? now rest (idx + 1)
        (maybeEmit sid? "lead_scored" "Processed lead" now reg) with
    | (restLeads, reg2) => ({ scored := some scored } :: restLeads, reg2)

/-- The outer `except` handler of `generate_leads` (lines 759-772). -/
def genError (sid? : Option String) (now : ℕ) (reg : Registry) (calls : List ExtCall)
    (emsg : String) : GenResult × Registry × List ExtCall :=
  (.error ("Lead generation failed: " ++ pyBraceEscape emsg),
   maybeEmit sid? "error" ("Lead generation failed: " ++ pyBraceEscape emsg) now reg,
   calls)

/-- The tail of the success path (lines 738-757): terminal event and
summary result. -/
def finishGen (sid? : Option String) (now : ℕ) (reg : Registry) (count : ℕ)
    (saveRes : Option SaveOutcome) (calls : List ExtCall) :
    GenResult × Registry × List ExtCall :=
  (.success count
    ("Generated " ++ toString count ++ " leads" ++
      (match saveRes with | some so => ". " ++ so.message | none => "")),
   maybeEmit sid? "generation_completed" "Lead generation completed" now reg,
   calls)

/-- The ICP-scoring phase of `generate_leads` (lines 654-713), guarded by
`OPENAI_API_KEY and leads and method == "apollo"`. -/
def scoringPhase (env : GenEnv) (sid? : Option String) (now : ℕ) (reg : Registry)
    (leads : List Lead) (isApollo : Bool) : List Lead × Registry :=
  if env.openaiKey && !leads.isEmpty && isApollo then
    match scoreLoop env sid? now leads 0
      (maybeEmit sid? "icp_scoring_started" "Scoring based on ICP..." now reg) with
    | (scoredLeads, reg2) =>
      (scoredLeads, maybeEmit sid? "icp_scoring_completed" "Completed ICP scoring" now reg2)
  else (leads, reg)

/-- The saving phase and terminal event of `generate_leads`
(lines 715-757), applied to the scoring phase's output. -/
def savingPhase (env : GenEnv) (sid? : Option String) (now : ℕ) (calls : List ExtCall) :
    List Lead × Registry → GenResult × Registry × List ExtCall
  | (leads1, regA) =>
    if leads1.isEmpty then finishGen sid? now regA leads1.length none calls
    else
      match env.save with
      | .error e =>
        genError sid? now
          (maybeEmit sid? "saving_leads_started" "Saving leads to database" now regA)
          (calls ++ [.saveCall]) e
      | .ok so =>
        finishGen sid? now
          (maybeEmit sid? "saving_leads_completed" "Successfully saved leads to database" now
            (maybeEmit sid? "saving_leads_started" "Saving leads to database" now regA))
          leads1.length (some so) (calls ++ [.saveCall])

/-- Scoring and saving phases shared by both adapter branches
(lines 654-757).  `isApollo` reflects the `method == "apollo"` guard of the
scoring condition. -/
def afterSearch (env : GenEnv) (sid? : Option String) (now : ℕ) (reg : Registry)
    (leads : List Lead) (isApollo : Bool) (calls : List ExtCall) :
    GenResult × Registry × List ExtCall :=
  savingPhase env sid? now calls (scoringPhase env sid? now reg leads isApollo)

/-- Truthiness of the optional session id: Python's `if session_id:` is
false for both `None` and the empty string. -/
def truthySid (sid? : Option String) : Option String :=
  match sid? with
  | some sid => if sid = "" then none else some sid
  | none => none

/-- `LeadService.generate_leads` (lines 604-772). -/
def generate_leads (env : GenEnv) (p : GenParams) (sid? : Option String) (now : ℕ)
    (reg : Registry) : GenResult × Registry × List ExtCall :=
  if p.method = none ∨ p.method = some "" ∨ p.jobTitles = [] ∨ p.locations = [] then
    (.error "Missing required parameters", reg, [])
  else
    let sidN := truthySid sid?
    let reg0 :=
      match sidN with
      | some sid =>
        emit_status sid "started" "Lead generation started" now (create_status_session sid now reg)
      | none => reg
    if p.method = some "apollo" then
      match env.apolloSearch with
      | .error e => genError sidN now reg0 [.apolloSearch] e
      | .ok leads => afterSearch env sidN now reg0 leads true [.apolloSearch]
    else if p.method = some "google_apify" then
      match env.googleSearch with
      | .error e => genError sidN now reg0 [.googleSearch] e
      | .ok leads => afterSearch env sidN now reg0 leads false [.googleSearch]
    else
      (.error "Invalid method specified", reg0, [])

/-! ### Registry lemmas for the orchestrator proofs -/

lemma find_overwrite (reg : Registry) (sid : String) (s : Session) :
    List.find? (fun q => q.1 == sid)
      (List.map (fun p => if p.1 == sid then (sid, s) else p) reg)
      = if List.any reg (fun p => p.1 == sid) then some (sid, s) else none := by
  induction reg with
  | nil => rfl
  | cons p rest ih =>
    rw [List.map_cons]
    by_cases hp : p.1 = sid
    · rw [if_pos (show (p.1 == sid) = true by simpa using hp),
        List.find?_cons_of_pos _ (by simp), List.any_cons]
      simp [hp]
    · rw [if_neg (show ¬(p.1 == sid) = true by simpa using hp),
        List.find?_cons_of_neg _ (by simpa using hp), ih, List.any_cons]
      have hfalse : (p.1 == sid) = false := by simpa using hp
      rw [hfalse, Bool.false_or]

lemma lookup_setSession (reg : Registry) (sid : String) (s : Session) :
    lookupSession (setSession reg sid s) sid = some s := by
  rw [setSession]
  split
  · rename_i h
    rw [lookupSession, find_overwrite, if_pos h]
    rfl
  · rename_i h
    rw [lookupSession, List.find?_append]
    have hnone : List.find? (fun q => q.1 == sid) reg = none := by
      apply List.find?_eq_none.mpr
      intro q hq
      simp only [List.any_eq_true, not_exists] at h
      intro hbeq
      exact h q ⟨hq, hbeq⟩
    rw [hnone]
    simp

lemma find_map_ne {reg : Registry} {sid sid' : String} {s' : Session} (h : sid ≠ sid') :
    List.find? (fun q => q.1 == sid)
      (List.map (fun p => if p.1 == sid' then (sid', s') else p) reg)
      = List.find? (fun q => q.1 == sid) reg := by
  induction reg with
  | nil => rfl
  | cons p rest ih =>
    rw [List.map_cons]
    by_cases hp : p.1 = sid'
    · rw [if_pos (show (p.1 == sid') = true by simpa using hp),
        List.find?_cons_of_neg _ (by simp [Ne.symm h]),
        ih, List.find?_cons_of_neg _ (by simp [hp, Ne.symm h])]
    · rw [if_neg (show ¬(p.1 == sid') = true by simpa using hp)]
      by_cases hps : p.1 = sid
      · rw [List.find?_cons_of_pos _ (by simpa using hps),
          List.find?_cons_of_pos _ (by simpa using hps)]
      · rw [List.find?_cons_of_neg _ (by simpa using hps),
          List.find?_cons_of_neg _ (by simpa using hps), ih]

lemma lookup_setSession_ne {reg : Registry} {sid sid' : String} {s' : Session}
    (h : sid ≠ sid') :
    lookupSession (setSession reg sid' s') sid = lookupSession reg sid := by
  rw [setSession]
  split
  · rw [lookupSession, find_map_ne h, lookupSession]
  · rw [lookupSession, List.find?_append]
    have h2 : List.find? (fun q => q.1 == sid) [(sid', s')] = none := by
      simp [List.find?_cons, Ne.symm h]
    rw [h2, Option.or_none, lookupSession]

lemma setSession_preserves_isSome {reg : Registry} {sid sid' : String} {s' : Session}
    (h : (lookupSession reg sid).isSome) :
    (lookupSession (setSession reg sid' s') sid).isSome := by
  by_cases he : sid = sid'
  · subst he
    rw [lookup_setSession]
    rfl
  · rw [lookup_setSession_ne he]
    exact h

lemma lookup_emit {reg : Registry} {sid : String} {s : Session} {t m : String} {now : ℕ}
    (h : lookupSession reg sid = some s) :
    lookupSession (emit_status sid t m now reg) sid
      = some (applyEvent s { timestamp := now, type := t, message := m }) := by
  rw [emit_status, h, lookup_setSession]

lemma emit_preserves_isSome {reg : Registry} {sid sid' : String} {t m : String} {now : ℕ}
    (h : (lookupSession reg sid).isSome) :
    (lookupSession (emit_status sid' t m now reg) sid).isSome := by
  rw [emit_status]
  cases hl : lookupSession reg sid' with
  | none => exact h
  | some s => exact setSession_preserves_isSome h

/-- The terminal-session predicate of the spec's claim: completed, no
longer active, with a terminal event in the history. -/
def sessionTerminal (s : Session) : Prop :=
  s.completed = true ∧ s.active = false ∧
    ∃ ev ∈ s.status_history, ev.type = "generation_completed" ∨ ev.type = "error"

lemma applyEvent_terminal (s : Session) (ev : Event)
    (h : ev.type = "generation_completed" ∨ ev.type = "error") :
    sessionTerminal (applyEvent s ev) := by
  rw [applyEvent, if_pos h]
  exact ⟨rfl, rfl, ev, by simp, h⟩

lemma terminal_after_emit {reg : Registry} {sid : String} {t m : String} {now : ℕ}
    (hsome : (lookupSession reg sid).isSome)
    (ht : t = "generation_completed" ∨ t = "error") :
    ∃ s', lookupSession (emit_status sid t m now reg) sid = some s' ∧ sessionTerminal s' := by
  obtain ⟨s, hs⟩ := Option.isSome_iff_exists.mp hsome
  exact ⟨_, lookup_emit hs, applyEvent_terminal _ _ ht⟩

lemma maybeEmit_preserves_isSome {sid? : Option String} {t m : String} {now : ℕ}
    {reg : Registry} {sid : String} (h : (lookupSession reg sid).isSome) :
    (lookupSession (maybeEmit sid? t m now reg) sid).isSome := by
  cases sid? with
  | some sid' => exact emit_preserves_isSome h
  | none => exact h

lemma scoreLoop_preserves_isSome (env : GenEnv) (sid? : Option String) (now : ℕ) :
    ∀ (leads : List Lead) (idx : ℕ) (reg : Registry) (sid : String),
    (lookupSession reg sid).isSome →
    (lookupSession (scoreLoop env sid? now leads idx reg).2 sid).isSome := by
  intro leads
  induction leads with
  | nil => intro idx reg sid h; exact h
  | cons l rest ih =>
    intro idx reg sid h
    have hrec := ih (idx + 1) (maybeEmit sid? "lead_scored" "Processed lead" now reg) sid
      (maybeEmit_preserves_isSome h)
    rw [scoreLoop]
    rcases hres : scoreLoop env sid? now rest (idx + 1)
        (maybeEmit sid? "lead_scored" "Processed lead" now reg) with ⟨ls, reg2⟩
    rw [hres] at hrec
    exact hrec

lemma genError_terminal {reg : Registry} {sid : String} {now : ℕ} {calls : List ExtCall}
    {e : String} (hsome : (lookupSession reg sid).isSome) :
    ∃ s', lookupSession (genError (some sid) now reg calls e).2.1 sid = some s' ∧
      sessionTerminal s' :=
  terminal_after_emit hsome (Or.inr rfl)

lemma finishGen_terminal {reg : Registry} {sid : String} {now cnt : ℕ}
    {saveRes : Option SaveOutcome} {calls : List ExtCall}
    (hsome : (lookupSession reg sid).isSome) :
    ∃ s', lookupSession (finishGen (some sid) now reg cnt saveRes calls).2.1 sid = some s' ∧
      sessionTerminal s' :=
  terminal_after_emit hsome (Or.inl rfl)

lemma scoringPhase_preserves_isSome (env : GenEnv) (sid? : Option String) (now : ℕ)
    (reg : Registry) (leads : List Lead) (isApollo : Bool) (sid : String)
    (hsome : (lookupSession reg sid).isSome) :
    (lookupSession (scoringPhase env sid? now reg leads isApollo).2 sid).isSome := by
  rw [scoringPhase]
  split
  · have h2 := scoreLoop_preserves_isSome env sid? now leads 0
      (maybeEmit sid? "icp_scoring_started" "Scoring based on ICP..." now reg) sid
      (maybeEmit_preserves_isSome hsome)
    rcases hsl : scoreLoop env sid? now leads 0
        (maybeEmit sid? "icp_scoring_started" "Scoring based on ICP..." now reg) with ⟨ls, reg2⟩
    rw [hsl] at h2
    exact maybeEmit_preserves_isSome h2
  · exact hsome

lemma savingPhase_terminal (env : GenEnv) (sid : String) (now : ℕ) (calls : List ExtCall)
    (leads1 : List Lead) (regA : Registry)
    (hA : (lookupSession regA sid).isSome) :
    ∃ s', lookupSession (savingPhase env (some sid) now calls (leads1, regA)).2.1 sid
        = some s' ∧ sessionTerminal s' := by
  rw [savingPhase]
  by_cases hle : leads1.isEmpty = true
  · rw [if_pos hle]
    exact finishGen_terminal hA
  · rw [if_neg hle]
    cases hs : env.save with
    | error e => exact genError_terminal (maybeEmit_preserves_isSome hA)
    | ok so =>
      exact finishGen_terminal (maybeEmit_preserves_isSome (maybeEmit_preserves_isSome hA))

lemma afterSearch_terminal (env : GenEnv) (sid : String) (now : ℕ) (reg : Registry)
    (leads : List Lead) (isApollo : Bool) (calls : List ExtCall)
    (hsome : (lookupSession reg sid).isSome) :
    ∃ s', lookupSession (afterSearch env (some sid) now reg leads isApollo calls).2.1 sid
        = some s' ∧ sessionTerminal s' := by
  rw [afterSearch]
  rcases hphase : scoringPhase env (some sid) now reg leads isApollo with ⟨leads1, regA⟩
  have hA := scoringPhase_preserves_isSome env (some sid) now reg leads isApollo sid hsome
  rw [hphase] at hA
  exact savingPhase_terminal env sid now calls leads1 regA hA

/-- C6: when `method`, `jobTitles` or `locations` is missing/empty,
`generate_leads` returns the structured error result immediately: the
registry is untouched (no session created, no event emitted) and no
provider or persistence call is recorded. -/
theorem C6_theorem (env : GenEnv) (p : GenParams) (sid? : Option String) (now : ℕ)
    (reg : Registry)
    (h : p.method = none ∨ p.method = some "" ∨ p.jobTitles = [] ∨ p.locations = []) :
    generate_leads env p sid? now reg = (.error "Missing required parameters", reg, []) := by
  rw [generate_leads, if_pos h]

/-- Closed witness for `C6_theorem`: a query with a missing method. -/
theorem C6_theorem_witness :
    generate_leads ⟨false, .ok [], .ok [], fun _ => .ok .badJson, .ok ⟨"", 0⟩⟩
      ⟨none, ["x"], ["y"]⟩ (some "s") 0 []
      = (.error "Missing required parameters", [], []) :=
  C6_theorem _ _ _ _ _ (Or.inl rfl)

/-- C2 counterexample: with a tracked session and a query that passes
validation but names an unknown method, `generate_leads` returns the
"Invalid method specified" error without emitting any terminal event: the
session is left active, not completed, with only the `started` event. -/
theorem C2_counterexample :
    (generate_leads ⟨false, .ok [], .ok [], fun _ => .ok .badJson, .ok ⟨"", 0⟩⟩
        ⟨some "bogus", ["x"], ["y"]⟩ (some "s") 0 []).1
      = .error "Invalid method specified" ∧
    lookupSession (generate_leads ⟨false, .ok [], .ok [], fun _ => .ok .badJson, .ok ⟨"", 0⟩⟩
        ⟨some "bogus", ["x"], ["y"]⟩ (some "s") 0 []).2.1 "s"
      = some { created_at := 0, active := true, completed := false,
               status_history := [⟨0, "started", "Lead generation started"⟩],
               current_status := some ⟨0, "started", "Lead generation started"⟩,
               completion_timestamp := none } := by
  constructor <;> decide

/-- C2 (amended): for every call that passes validation with a (truthy)
sessionId and a *known* method ("apollo" or "google_apify"), when
`generate_leads` returns — by the success path or the exception path — a
terminal event (`generation_completed` or `error`) has been emitted to the
session and its `completed` flag is true with `active` false.  On the
invalid-method path, however, the function returns its error result with
the session still active and no terminal event emitted. -/
theorem C2_amended_theorem (env : GenEnv) (p : GenParams) (sid : String) (now : ℕ)
    (reg : Registry)
    (hsid : sid ≠ "")
    (hm : p.method = some "apollo" ∨ p.method = some "google_apify")
    (hjt : p.jobTitles ≠ []) (hloc : p.locations ≠ []) :
    ∃ s, lookupSession (generate_leads env p (some sid) now reg).2.1 sid = some s ∧
      sessionTerminal s := by
  have hval : ¬(p.method = none ∨ p.method = some "" ∨ p.jobTitles = [] ∨ p.locations = []) := by
    rcases hm with h | h <;> simp [h, hjt, hloc]
  have hsome0 : (lookupSession
      (emit_status sid "started" "Lead generation started" now
        (create_status_session sid now reg)) sid).isSome := by
    apply emit_preserves_isSome
    rw [create_status_session, lookup_setSession]
    rfl
  rcases hm with h | h
  · simp only [generate_leads, truthySid, h, hjt, hloc, hsid]
    simp only [reduceIte]
    cases hs : env.apolloSearch with
    | error e => exact genError_terminal hsome0
    | ok leads => exact afterSearch_terminal env sid now _ leads true _ hsome0
  · simp only [generate_leads, truthySid, h, hjt, hloc, hsid]
    simp only [reduceIte]
    cases hs : env.googleSearch with
    | error e => exact genError_terminal hsome0
    | ok leads => exact afterSearch_terminal env sid now _ leads false _ hsome0

/-- Closed witness for `C2_amended_theorem`: an apollo run with the trivial
environment. -/
theorem C2_amended_theorem_witness :
    ∃ s, lookupSession
        (generate_leads ⟨false, .ok [], .ok [], fun _ => .ok .badJson, .ok ⟨"", 0⟩⟩
          ⟨some "apollo", ["x"], ["y"]⟩ (some "s") 0 []).2.1 "s" = some s ∧
      sessionTerminal s :=
  C2_amended_theorem _ _ "s" 0 [] (by decide) (Or.inl rfl) (by decide) (by decide)

/-! ## Python values

Provider response bodies, profile records and database rows are
dynamically-shaped Python objects; `PyVal` models the JSON-compatible
fragment the code manipulates.  Dicts are association lists in insertion
order with unique keys (as Python guarantees). -/

inductive PyVal where
  | none
  | bool (b : Bool)
  | int (n : ℤ)
  | float (q : ℚ)
  | str (s : String)
  | list (items : List PyVal)
  | dict (entries : List (String × PyVal))

/-- `d.get(k, dflt)` on a dict's entry list. -/
def dictGet (entries : List (String × PyVal)) (k : String) (dflt : PyVal) : PyVal :=
  match List.find? (fun p => p.1 == k) entries with
  | some p => p.2
  | Option.none => dflt

/-- `k in d` on a dict's entry list. -/
def dictHas (entries : List (String × PyVal)) (k : String) : Bool :=
  (List.find? (fun p => p.1 == k) entries).isSome

/-- Python truthiness of a `PyVal`. -/
def pyFalsy : PyVal → Bool
  | .none => true
  | .bool b => !b
  | .int n => n == 0
  | .float q => q == 0
  | .str s => s == ""
  | .list l => l.isEmpty
  | .dict d => d.isEmpty

/-- Python's `needle in hay` for strings: substring containment. -/
def strContains (hay needle : String) : Bool :=
  List.any hay.toList.tails (fun t => needle.toList.isPrefixOf t)

/-- Python's `str.strip()` over ASCII/unicode whitespace, implemented
structurally over the character list. -/
def pyStrip (s : String) : String :=
  String.mk (((s.toList.dropWhile Char.isWhitespace).reverse.dropWhile
    Char.isWhitespace).reverse)

/-- Python's `str.split(c)` for a one-character separator, implemented
structurally (`"".split(c) == [""]`). -/
def splitOnChar (c : Char) : List Char → List (List Char)
  | [] => [[]]
  | x :: xs =>
    if x = c then [] :: splitOnChar c xs
    else
      match splitOnChar c xs with
      | h :: t => (x :: h) :: t
      | [] => [[x]]

/-- Python's `len(x)`: `none` models a `TypeError` for unsized values. -/
def pyLen : PyVal → Option ℕ
  | .str s => some s.length
  | .list l => some l.length
  | .dict d => some d.length
  | _ => Option.none

/-- Python's `for x in v`: lists yield items, strings yield 1-character
strings, dicts yield their keys; `none` models a `TypeError`. -/
def pyIter : PyVal → Option (List PyVal)
  | .list l => some l
  | .str s => some (s.toList.map (fun c => .str (String.mk [c])))
  | .dict d => some (d.map (fun p => .str p.1))
  | _ => Option.none

/-! ## Apollo search (`check_apollo_exhaustion_response` lines 795-802 and
`_search_apollo_leads` lines 804-1068)

HTTP calls are an oracle indexed by attempt number.  Event emissions inside
the search (which require a session id and do not influence the returned
profiles or the credential state) are projected away; the claims about this
function concern its return value and credential rotation. -/

/-- `LeadService.check_apollo_exhaustion_response` (lines 795-802): a
single-element list whose dict item's message contains both quota phrases.
(A non-string `message` value is modelled as not matching; the claims only
exercise string messages.) -/
def check_apollo_exhaustion_response (r : PyVal) : Bool :=
  match r with
  | .list [.dict d] =>
    match dictGet d "message" (.str "") with
    | .str m => strContains m "exhausted their daily run limit" && strContains m "2 of 2"
    | _ => false
  | _ => false

/-- Leap-year rule used by `datetime`. -/
def isLeapYear (y : ℤ) : Bool :=
  (y % 4 == 0 && y % 100 != 0) || (y % 400 == 0)

def daysInMonth (y m : ℤ) : ℤ :=
  if m = 2 then (if isLeapYear y then 29 else 28)
  else if m = 4 ∨ m = 6 ∨ m = 9 ∨ m = 11 then 30
  else 31

/-- `datetime.strptime(s, "%Y-%m-%d")`: three dash-separated digit groups
with calendar validation; `none` models a `ValueError`. -/
def pyStrptimeYMD (s : String) : Option (ℤ × ℤ) :=
  match s.splitOn "-" with
  | [ys, ms, ds] =>
    if ys ≠ "" ∧ ys.length ≤ 4 ∧ ys.toList.all Char.isDigit ∧
       ms ≠ "" ∧ ms.length ≤ 2 ∧ ms.toList.all Char.isDigit ∧
       ds ≠ "" ∧ ds.length ≤ 2 ∧ ds.toList.all Char.isDigit then
      let y : ℤ := ys.toNat!
      let m : ℤ := ms.toNat!
      let d : ℤ := ds.toNat!
      if 1 ≤ m ∧ m ≤ 12 ∧ 1 ≤ d ∧ d ≤ daysInMonth y m ∧ 1 ≤ y then
        some (y, m)
      else Option.none
    else Option.none
  | _ => Option.none

/-- The employment-history months computation (lines 966-975).  `nowYM` is
`datetime.now()`'s (year, month); `nowStr` its `%Y-%m-%d` rendering.
Result `none` models an uncaught exception (a non-iterable history or a
non-dict entry), which skips the whole profile via the per-item handler. -/
def computeExperienceMonths (nowYM : ℤ × ℤ) (nowStr : String) : PyVal → Option ℤ
  | .list jobs => go jobs
  | .str s => if s.toList.isEmpty then some 0 else Option.none
  | .dict d => if d.isEmpty then some 0 else Option.none
  | _ => Option.none
where
  /-- One pass over the jobs; a non-dict entry raises (`none`), a date
  parse failure is swallowed by the inner `except` (contributes 0). -/
  go : List PyVal → Option ℤ
  | [] => some 0
  | .dict jd :: rest =>
    match go rest with
    | Option.none => Option.none
    | some acc =>
      let contribution :=
        match dictGet jd "start_date" (.str "") with
        | .str ss =>
          match pyStrptimeYMD ss with
          | Option.none => 0
          | some (sy, sm) =>
            let endYM? : Option (ℤ × ℤ) :=
              if !pyFalsy (dictGet jd "current" (.bool false)) then some nowYM
              else
                match dictGet jd "end_date" (.str nowStr) with
                | .str es => pyStrptimeYMD es
                | _ => Option.none
            match endYM? with
            | Option.none => 0
            | some (ey, em) => max 0 ((ey - sy) * 12 + (em - sm))
        | _ => 0
      some (acc + contribution)
  | _ :: _ => Option.none

/-- The truthy-guarded location parts (lines 978-982): falsy values are
skipped, truthy strings are collected, a truthy non-string would make
`", ".join` raise (`none`), skipping the profile. -/
def locationParts : List PyVal → Option (List String)
  | [] => some []
  | v :: rest =>
    match locationParts rest with
    | Option.none => Option.none
    | some parts =>
      if pyFalsy v then some parts
      else
        match v with
        | .str s => some (s :: parts)
        | _ => Option.none

/-- The profile record built per Apollo result (lines 984-1024).  `none`
models an exception inside the per-item `try`, which skips the item. -/
def buildApolloProfile (nowYM : ℤ × ℤ) (nowStr : String) (d : List (String × PyVal)) :
    Option (List (String × PyVal)) :=
  let orgv := dictGet d "organization" (.dict [])
  let orgv := if pyFalsy orgv then PyVal.dict [] else orgv
  match orgv with
  | .dict od =>
    match computeExperienceMonths nowYM nowStr (dictGet d "employment_history" (.list [])) with
    | Option.none => Option.none
    | some months =>
      match locationParts
          [dictGet d "city" .none, dictGet d "state" .none, dictGet d "country" .none] with
      | Option.none => Option.none
      | some parts =>
        some
          [("linkedin_url", dictGet d "linkedin_url" (.str "")),
           ("fullName", dictGet d "name" (.str "")),
           ("firstName", dictGet d "first_name" (.str "")),
           ("lastName", dictGet d "last_name" (.str "")),
           ("jobTitle", dictGet d "title" (.str "")),
           ("email", dictGet d "email" (.str "")),
           ("email_status", dictGet d "email_status" (.str "")),
           ("photo_url", dictGet d "photo_url" (.str "")),
           ("headline", dictGet d "headline" (.str "")),
           ("location", .str (String.intercalate ", " parts)),
           ("city", dictGet d "city" (.str "")),
           ("state", dictGet d "state" (.str "")),
           ("country", dictGet d "country" (.str "")),
           ("seniority", dictGet d "seniority" (.str "")),
           ("departments", dictGet d "departments" (.list [])),
           ("subdepartments", dictGet d "subdepartments" (.list [])),
           ("functions", dictGet d "functions" (.list [])),
           ("work_experience_months", .int months),
           ("employment_history", dictGet d "employment_history" (.list [])),
           ("intent_strength", dictGet d "intent_strength" .none),
           ("show_intent", dictGet d "show_intent" (.bool false)),
           ("email_domain_catchall", dictGet d "email_domain_catchall" (.bool false)),
           ("revealed_for_current_team", dictGet d "revealed_for_current_team" (.bool false)),
           ("companyName", dictGet od "name" (.str "")),
           ("companyWebsite", dictGet od "website_url" (.str "")),
           ("companyLinkedIn", dictGet od "linkedin_url" (.str "")),
           ("companyTwitter", dictGet od "twitter_url" (.str "")),
           ("companyFacebook", dictGet od "facebook_url" (.str "")),
           ("companyPhone", dictGet od "phone" (.str "")),
           ("companyFoundedYear", dictGet od "founded_year" .none),
           ("companySize", dictGet od "size" (.str "")),
           ("companyIndustry", dictGet od "industry" (.str "")),
           ("companyDomain", dictGet od "primary_domain" (.str "")),
           ("companyGrowth6Month", dictGet od "organization_headcount_six_month_growth" .none),
           ("companyGrowth12Month", dictGet od "organization_headcount_twelve_month_growth" .none),
           ("companyGrowth24Month",
             dictGet od "organization_headcount_twenty_four_month_growth" .none),
           ("send_email_status", .str "Not Sent")]
  | _ => Option.none

/-- The per-item processing loop (lines 960-1040): non-dict items and
items whose construction raises are skipped by the per-item handler. -/
def processApolloItems (nowYM : ℤ × ℤ) (nowStr : String) (items : List PyVal) :
    List (List (String × PyVal)) :=
  items.filterMap (fun item =>
    match item with
    | .dict d => buildApolloProfile nowYM nowStr d
    | _ => Option.none)

/-- The HTTP response oracle for one outbound Apify call: a status code
with the `json()` parse outcome (`Except.error` = `JSONDecodeError`), a
timeout, a `requests` error, or any other exception. -/
inductive HttpResp where
  | resp (status : ℕ) (body : Except Unit PyVal)
  | timeout
  | reqError (msg : String)
  | otherError (msg : String)

/-- Outcome of one iteration of the retry loop of `_search_apollo_leads`. -/
inductive AttemptResult where
  | retry (lastR : Option PyVal) (svc : ServiceKeys)
  | earlyEmpty
  | success (results : List PyVal) (svc : ServiceKeys)

/-- One iteration of the retry loop (lines 830-946) after a key has been
acquired: branch on status, parse, soft-exhaustion check, falsiness check
and response-shape normalization.  `lastR` tracks the value last assigned
to the Python variable `results`, which survives `continue`. -/
def apolloAttemptStep (svc : ServiceKeys) (key : String) (resp : HttpResp)
    (lastR : Option PyVal) (isLast : Bool) : AttemptResult :=
  match resp with
  | .timeout => if isLast then .earlyEmpty else .retry lastR svc
  | .reqError _ => if isLast then .earlyEmpty else .retry lastR svc
  | .otherError _ => if isLast then .earlyEmpty else .retry lastR svc
  | .resp status body =>
    if status ≠ 200 ∧ status ≠ 201 ∧ status ≠ 400 then
      if status = 429 ∨ status = 401 ∨ status = 403 then
        .retry lastR (mark_key_exhausted key svc)
      else if isLast then .earlyEmpty else .retry lastR svc
    else
      match body with
      | .error _ => if isLast then .earlyEmpty else .retry lastR svc
      | .ok results0 =>
        if check_apollo_exhaustion_response results0 then
          .retry (some results0) (mark_key_exhausted key svc)
        else if pyFalsy results0 then
          if isLast then .earlyEmpty else .retry (some results0) svc
        else
          match results0 with
          | .dict d =>
            if dictHas d "data" then
              match dictGet d "data" .none with
              | .list l => .success l svc
              | v => if isLast then .earlyEmpty else .retry (some v) svc
            else if dictHas d "items" then
              match dictGet d "items" .none with
              | .list l => .success l svc
              | v => if isLast then .earlyEmpty else .retry (some v) svc
            else if isLast then .earlyEmpty else .retry (some results0) svc
          | .list l => .success l svc
          | v => if isLast then .earlyEmpty else .retry (some v) svc

/-- How the retry loop finished: an in-loop `return []`, a `break` with
results, or running out of attempts with `results` last bound to `lastR`. -/
inductive LoopEnd where
  | earlyEmpty
  | success (results : List PyVal) (svc : ServiceKeys)
  | fellThrough (lastR : Option PyVal) (svc : ServiceKeys)

/-- The retry loop (`for attempt in range(max_retries)`, lines 829-946):
acquire a key each iteration via `get_next_available_key`, returning `[]`
when none is available. -/
def apolloLoop (today : ℕ) (resps : ℕ → HttpResp) :
    ℕ → ℕ → ServiceKeys → Option PyVal → LoopEnd
  | 0, _, svc, lastR => .fellThrough lastR svc
  | fuel + 1, attempt, svc, lastR =>
    match get_next_available_key today svc with
    | (Option.none, _) => .earlyEmpty
    | (some key, svc1) =>
      match apolloAttemptStep svc1 key (resps attempt) lastR (fuel = 0) with
      | .retry lastR' svc2 => apolloLoop today resps fuel (attempt + 1) svc2 lastR'
      | .earlyEmpty => .earlyEmpty
      | .success rs svc2 => .success rs svc2

/-- `LeadService._search_apollo_leads` (lines 804-1068): the retry loop,
then the post-loop processing, whose `except`-caught failures (including a
`NameError` when no attempt ever bound `results`, and a `TypeError` when
the surviving value is not sized) produce `[]` via the outer handler. -/
def search_apollo_leads (today : ℕ) (nowYM : ℤ × ℤ) (nowStr : String)
    (resps : ℕ → HttpResp) (svc : ServiceKeys) : List (List (String × PyVal)) :=
  match apolloLoop today resps svc.token_queue.total_keys 0 svc Option.none with
  | .earlyEmpty => []
  | .success rs _ => processApolloItems nowYM nowStr rs
  | .fellThrough Option.none _ => []
  | .fellThrough (some r) _ =>
    match pyIter r with
    | Option.none => []
    | some items => processApolloItems nowYM nowStr items

/-- C7 (code bug): with one credential, if the only attempt returns a 2xx
soft-exhaustion body, the loop marks the key and retries without a
last-attempt guard, exhausting all retries; control then falls out of the
loop with the stale exhaustion body still bound to `results`, and the
function returns ONE junk profile built from the message record instead of
the empty list the claim (and the spec) promise. -/
theorem C7_theorem :
    (search_apollo_leads 0 (2025, 6) "2025-06-15"
        (fun _ => .resp 200 (.ok (.list [.dict [("message",
          .str "This account has exhausted their daily run limit (2 of 2 runs used)")]])))
        ⟨APIKeyQueue.init ["k"] 0, [], 1⟩).length = 1 ∧
    search_apollo_leads 0 (2025, 6) "2025-06-15"
        (fun _ => .resp 200 (.ok (.list [.dict [("message",
          .str "This account has exhausted their daily run limit (2 of 2 runs used)")]])))
        ⟨APIKeyQueue.init ["k"] 0, [], 1⟩ ≠ [] := by
  have hlen : (search_apollo_leads 0 (2025, 6) "2025-06-15"
      (fun _ => .resp 200 (.ok (.list [.dict [("message",
        .str "This account has exhausted their daily run limit (2 of 2 runs used)")]])))
      ⟨APIKeyQueue.init ["k"] 0, [], 1⟩).length = 1 := rfl
  refine ⟨hlen, fun h => ?_⟩
  rw [h] at hlen
  exact absurd hlen (by decide)

/-- C8: a 2xx single-element-list body whose item's message contains the
quota-exhaustion phrases is detected as soft exhaustion and treated like a
rate limit — the credential is marked exhausted (at both service and queue
level) and the loop retries instead of returning the body as results — and
bare-list, `{data: [...]}` and `{items: [...]}` bodies are all normalized
to the inner list. -/
theorem C8_theorem :
    (∀ (svc : ServiceKeys) (key : String) (lastR : Option PyVal) (isLast : Bool)
       (status : ℕ) (d : List (String × PyVal)) (m : String),
      (status = 200 ∨ status = 201) →
      dictGet d "message" (.str "") = .str m →
      strContains m "exhausted their daily run limit" = true →
      strContains m "2 of 2" = true →
      apolloAttemptStep svc key (.resp status (.ok (.list [.dict d]))) lastR isLast
        = .retry (some (.list [.dict d])) (mark_key_exhausted key svc)) ∧
    (∀ (svc : ServiceKeys) (key : String) (lastR : Option PyVal) (isLast : Bool)
       (status : ℕ) (l : List PyVal),
      (status = 200 ∨ status = 201) →
      check_apollo_exhaustion_response (.list l) = false → l ≠ [] →
      apolloAttemptStep svc key (.resp status (.ok (.list l))) lastR isLast = .success l svc) ∧
    (∀ (svc : ServiceKeys) (key : String) (lastR : Option PyVal) (isLast : Bool)
       (status : ℕ) (d : List (String × PyVal)) (l : List PyVal),
      (status = 200 ∨ status = 201) → d ≠ [] →
      dictHas d "data" = true → dictGet d "data" .none = .list l →
      apolloAttemptStep svc key (.resp status (.ok (.dict d))) lastR isLast = .success l svc) ∧
    (∀ (svc : ServiceKeys) (key : String) (lastR : Option PyVal) (isLast : Bool)
       (status : ℕ) (d : List (String × PyVal)) (l : List PyVal),
      (status = 200 ∨ status = 201) → d ≠ [] →
      dictHas d "data" = false → dictHas d "items" = true →
      dictGet d "items" .none = .list l →
      apolloAttemptStep svc key (.resp status (.ok (.dict d))) lastR isLast = .success l svc) := by
  refine ⟨?_, ?_, ?_, ?_⟩
  · intro svc key lastR isLast status d m h2 hm hc1 hc2
    have hdet : check_apollo_exhaustion_response (.list [.dict d]) = true := by
      rw [check_apollo_exhaustion_response, hm]
      dsimp only
      rw [hc1, hc2]
      rfl
    rcases h2 with rfl | rfl <;>
      simp [apolloAttemptStep, hdet]
  · intro svc key lastR isLast status l h2 hdet hne
    rcases h2 with rfl | rfl <;>
      simp [apolloAttemptStep, hdet, pyFalsy, hne]
  · intro svc key lastR isLast status d l h2 hne hhas hget
    have hdet : check_apollo_exhaustion_response (.dict d) = false := rfl
    rcases h2 with rfl | rfl <;>
      simp [apolloAttemptStep, hdet, pyFalsy, hne, hhas, hget]
  · intro svc key lastR isLast status d l h2 hne hno hhas hget
    have hdet : check_apollo_exhaustion_response (.dict d) = false := rfl
    rcases h2 with rfl | rfl <;>
      simp [apolloAttemptStep, hdet, pyFalsy, hne, hno, hhas, hget]

/-- Closed witness for `C8_theorem`: the four parts at concrete inputs. -/
theorem C8_theorem_witness :
    apolloAttemptStep ⟨APIKeyQueue.init ["k"] 0, [], 1⟩ "k"
        (.resp 200 (.ok (.list [.dict [("message",
          .str "exhausted their daily run limit, 2 of 2")]]))) Option.none false
      = .retry (some (.list [.dict [("message",
          .str "exhausted their daily run limit, 2 of 2")]]))
          (mark_key_exhausted "k" ⟨APIKeyQueue.init ["k"] 0, [], 1⟩) ∧
    apolloAttemptStep ⟨APIKeyQueue.init ["k"] 0, [], 1⟩ "k"
        (.resp 200 (.ok (.list [.int 7]))) Option.none false
      = .success [.int 7] ⟨APIKeyQueue.init ["k"] 0, [], 1⟩ ∧
    apolloAttemptStep ⟨APIKeyQueue.init ["k"] 0, [], 1⟩ "k"
        (.resp 201 (.ok (.dict [("data", .list [.int 7])]))) Option.none true
      = .success [.int 7] ⟨APIKeyQueue.init ["k"] 0, [], 1⟩ ∧
    apolloAttemptStep ⟨APIKeyQueue.init ["k"] 0, [], 1⟩ "k"
        (.resp 200 (.ok (.dict [("items", .list [])]))) Option.none true
      = .success [] ⟨APIKeyQueue.init ["k"] 0, [], 1⟩ :=
  ⟨C8_theorem.1 _ "k" _ false 200 _ _ (Or.inl rfl) rfl rfl rfl,
   C8_theorem.2.1 _ "k" _ false 200 [.int 7] (Or.inl rfl) rfl (by simp),
   C8_theorem.2.2.1 _ "k" _ true 201 [("data", .list [.int 7])] [.int 7]
     (Or.inr rfl) (by simp) rfl rfl,
   C8_theorem.2.2.2 _ "k" _ true 200 [("items", .list [])] []
     (Or.inl rfl) (by simp) rfl rfl rfl⟩

/-! ## Apify enrichment batch processing (`enrich_profile_with_apify`,
lines 1305-1443, and `parse_location`, lines 1270-1303)

The per-batch processing loop (lines 1364-1412) builds an enriched profile
per item and attaches ICP scores, catching scoring failures per profile.
There is no per-item handler here: an exception while building a profile
(non-dict item, non-string address) aborts the whole batch attempt via the
attempt-level `except`, modelled as `Option.none`. -/

def jsonEscape (s : String) : String :=
  s.foldl (fun acc c =>
    if c = '\\' then acc ++ "\\\\"
    else if c = '"' then acc ++ "\\\"" else acc ++ String.mk [c]) ""

/-- `json.dumps` on the modelled values.  Rational "floats" are rendered
with `ℚ`'s `toString`, an approximation of Python's float repr; no claim
inspects dumped text. -/
def pyJsonDumps : PyVal → String
  | .none => "null"
  | .bool true => "true"
  | .bool false => "false"
  | .int n => toString n
  | .float q => toString q
  | .str s => "\"" ++ jsonEscape s ++ "\""
  | .list items =>
    "[" ++ String.intercalate ", " (items.attach.map (fun i => pyJsonDumps i.1)) ++ "]"
  | .dict entries =>
    "\x7b" ++ String.intercalate ", "
      (entries.attach.map (fun e => "\"" ++ jsonEscape e.1.1 ++ "\": " ++ pyJsonDumps e.1.2))
      ++ "\x7d"
decreasing_by
  · have := List.sizeOf_lt_of_mem i.2
    simp only [PyVal.list.sizeOf_spec]
    omega
  · obtain ⟨⟨k, v⟩, hmem⟩ := e
    have := List.sizeOf_lt_of_mem hmem
    simp only [Prod.mk.sizeOf_spec] at this
    simp only [PyVal.dict.sizeOf_spec]
    omega

/-- `LeadService.parse_location` (lines 1270-1303); `none` models the
`AttributeError` raised by `.split` on a truthy non-string. -/
def parse_location (location : PyVal) :
    Option (Option String × Option String × Option String) :=
  if pyFalsy location then some (Option.none, Option.none, Option.none)
  else
    match location with
    | .str s =>
      match (splitOnChar ',' s.toList).map (fun cs => pyStrip (String.mk cs)) with
      | [] => some (Option.none, Option.none, Option.none)
      | [c] => some (some c, Option.none, Option.none)
      | [c, p2] =>
        if p2.length ≤ 3 then some (some c, some p2, Option.none)
        else some (some c, Option.none, some p2)
      | c :: st :: co :: _ => some (some c, some st, some co)
    | _ => Option.none

def optStrToPy : Option String → PyVal
  | Option.none => .none
  | some s => .str s

/-- The enriched-profile record built per Apify item (lines 1371-1395). -/
def enrichProfileFields (pd : List (String × PyVal)) (nowIso : String) :
    Option (List (String × PyVal)) :=
  match parse_location (dictGet pd "addressWithCountry" (.str "")) with
  | Option.none => Option.none
  | some (city, state, country) =>
    some
      [("linkedin_url", dictGet pd "linkedinUrl" (.str "")),
       ("firstName", dictGet pd "firstName" (.str "")),
       ("lastName", dictGet pd "lastName" (.str "")),
       ("fullName", dictGet pd "fullName" (.str "")),
       ("headline", dictGet pd "headline" (.str "")),
       ("email", dictGet pd "email" .none),
       ("jobTitle", dictGet pd "jobTitle" (.str "")),
       ("companyName", dictGet pd "companyName" (.str "")),
       ("companyIndustry", dictGet pd "companyIndustry" (.str "")),
       ("companyWebsite", dictGet pd "companyWebsite" (.str "")),
       ("companyLinkedin", dictGet pd "companyLinkedin" (.str "")),
       ("companySize", dictGet pd "companySize" (.str "")),
       ("location", dictGet pd "addressWithCountry" (.str "")),
       ("city", optStrToPy city),
       ("state", optStrToPy state),
       ("country", optStrToPy country),
       ("about", dictGet pd "about" (.str "")),
       ("experience", .str (pyJsonDumps (dictGet pd "experiences" (.list [])))),
       ("connections", dictGet pd "connections" (.int 0)),
       ("followers", dictGet pd "followers" (.int 0)),
       ("photo_url", dictGet pd "profilePic" .none),
       ("scraped_at", .str nowIso),
       ("scraping_status", .str "success")]

def breakdownToPy : Breakdown → PyVal
  | .subs i r s dm reason =>
    .dict [("industry_fit", .float i), ("role_fit", .float r),
           ("company_size_fit", .float s), ("decision_maker", .float dm),
           ("reasoning", .str reason)]
  | .reasonOnly reason => .dict [("reasoning", .str reason)]

/-- The per-profile scoring attachment (lines 1397-1411): on success the
result of `analyze_profile` (which itself defaults internally when the AI
call raises), on a raise from `analyze_profile` itself the 0/0/"D"
fallback. -/
def enrichAttachScore (openaiCfg : Bool) (scoreRes : Except String AIOutcome)
    (base : List (String × PyVal)) : List (String × PyVal) :=
  match scoreRes with
  | .ok outcome =>
    match analyze_profile openaiCfg outcome with
    | r =>
      base ++ [("icp_score", .float r.icp_score), ("icp_percentage", .float r.icp_percentage),
               ("icp_grade", .str r.icp_grade), ("icp_breakdown", breakdownToPy r.icp_breakdown)]
  | .error _ =>
    base ++ [("icp_score", .int 0), ("icp_percentage", .int 0), ("icp_grade", .str "D"),
             ("icp_breakdown", .dict [("reasoning", .str "AI ICP scoring failed")])]

/-- The batch-processing loop of `enrich_profile_with_apify`
(lines 1361-1414): every item is enriched and scored in order; an
exception while building fields aborts the whole attempt (`none`). -/
def enrichProcessBatch (openaiCfg : Bool) (scoreCall : ℕ → Except String AIOutcome)
    (nowIso : String) : List PyVal → ℕ → Option (List (List (String × PyVal)))
  | [], _ => some []
  | .dict pd :: rest, i =>
    match enrichProfileFields pd nowIso with
    | Option.none => Option.none
    | some base =>
      match enrichProcessBatch openaiCfg scoreCall nowIso rest (i + 1) with
      | Option.none => Option.none
      | some tail => some (enrichAttachScore openaiCfg (scoreCall i) base :: tail)
  | _ :: _, _ => Option.none

lemma scoreLoop_length (env : GenEnv) (sid? : Option String) (now : ℕ) :
    ∀ (leads : List Lead) (idx : ℕ) (reg : Registry),
    (scoreLoop env sid? now leads idx reg).1.length = leads.length := by
  intro leads
  induction leads with
  | nil => intro idx reg; rfl
  | cons l rest ih =>
    intro idx reg
    rw [scoreLoop]
    rcases h : scoreLoop env sid? now rest (idx + 1)
        (maybeEmit sid? "lead_scored" "Processed lead" now reg) with ⟨ls, reg2⟩
    have hlen := ih (idx + 1) (maybeEmit sid? "lead_scored" "Processed lead" now reg)
    rw [h] at hlen
    simpa using hlen

lemma scoreLoop_get_raise (env : GenEnv) (sid? : Option String) (now : ℕ) :
    ∀ (leads : List Lead) (idx : ℕ) (reg : Registry) (i : ℕ) (msg : String),
    i < leads.length → env.scoreCall (idx + i) = .ok (.raise msg) →
    (scoreLoop env sid? now leads idx reg).1.get? i
      = some ⟨some (icpDefault ("Error: " ++ pyBraceEscape msg))⟩ := by
  intro leads
  induction leads with
  | nil =>
    intro idx reg i msg hi _
    simp at hi
  | cons l rest ih =>
    intro idx reg i msg hi hcall
    rw [scoreLoop]
    rcases h : scoreLoop env sid? now rest (idx + 1)
        (maybeEmit sid? "lead_scored" "Processed lead" now reg) with ⟨ls, reg2⟩
    cases i with
    | zero =>
      have hc : env.scoreCall idx = .ok (.raise msg) := by simpa using hcall
      simp [hc, analyze_profile]
    | succ i' =>
      have hc : env.scoreCall ((idx + 1) + i') = .ok (.raise msg) := by
        have : idx + 1 + i' = idx + (i' + 1) := by omega
        rw [this]
        exact hcall
      have := ih (idx + 1) (maybeEmit sid? "lead_scored" "Processed lead" now reg) i' msg
        (by simpa using Nat.lt_of_succ_lt_succ hi) hc
      rw [h] at this
      simpa using this

lemma enrichProcessBatch_total (openaiCfg : Bool) (scoreCall : ℕ → Except String AIOutcome)
    (nowIso : String) :
    ∀ (items : List PyVal) (i : ℕ),
    (∀ pd ∈ items, ∃ d, pd = PyVal.dict d ∧ (enrichProfileFields d nowIso).isSome) →
    ∃ out, enrichProcessBatch openaiCfg scoreCall nowIso items i = some out ∧
      out.length = items.length := by
  intro items
  induction items with
  | nil => intro i _; exact ⟨[], rfl, rfl⟩
  | cons pd rest ih =>
    intro i hall
    obtain ⟨d, rfl, hfields⟩ := hall pd (List.mem_cons_self _ _)
    obtain ⟨base, hbase⟩ := Option.isSome_iff_exists.mp hfields
    obtain ⟨tail, htail, hlen⟩ := ih (i + 1) (fun q hq => hall q (List.mem_cons_of_mem _ hq))
    refine ⟨enrichAttachScore openaiCfg (scoreCall i) base :: tail, ?_, by simpa using hlen⟩
    rw [enrichProcessBatch, hbase, htail]

/-- C5: a profile whose AI scoring call raises still receives the neutral
default — sub-scores 5.0, percentage 50, grade "C", with the failure
reason recorded — and the rest of the batch is processed normally, on both
pipeline variants: the `generate_leads` scoring loop keeps one scored lead
per input lead, and the enrichment batch loop keeps one enriched profile
per item regardless of scoring outcomes. -/
theorem C5_theorem :
    (∀ reason, icpDefault reason = ⟨50, 50, "C", .subs 5 5 5 5 reason⟩) ∧
    (∀ (env : GenEnv) (sid? : Option String) (now : ℕ) (leads : List Lead) (idx : ℕ)
       (reg : Registry),
      (scoreLoop env sid? now leads idx reg).1.length = leads.length ∧
      (∀ i, i < leads.length → ∀ msg, env.scoreCall (idx + i) = .ok (.raise msg) →
        (scoreLoop env sid? now leads idx reg).1.get? i
          = some ⟨some (icpDefault ("Error: " ++ pyBraceEscape msg))⟩)) ∧
    (∀ (base : List (String × PyVal)) (msg : String),
      enrichAttachScore true (.ok (.raise msg)) base
        = base ++ [("icp_score", .float 50), ("icp_percentage", .float 50),
                   ("icp_grade", .str "C"),
                   ("icp_breakdown",
                     breakdownToPy (.subs 5 5 5 5 ("Error: " ++ pyBraceEscape msg)))]) ∧
    (∀ (openaiCfg : Bool) (scoreCall : ℕ → Except String AIOutcome) (nowIso : String)
       (items : List PyVal) (i : ℕ),
      (∀ pd ∈ items, ∃ d, pd = PyVal.dict d ∧ (enrichProfileFields d nowIso).isSome) →
      ∃ out, enrichProcessBatch openaiCfg scoreCall nowIso items i = some out ∧
        out.length = items.length) := by
  refine ⟨fun reason => rfl, ?_, fun base msg => rfl, ?_⟩
  · intro env sid? now leads idx reg
    exact ⟨scoreLoop_length env sid? now leads idx reg,
      fun i hi msg hc => scoreLoop_get_raise env sid? now leads idx reg i msg hi hc⟩
  · intro openaiCfg scoreCall nowIso items i hall
    exact enrichProcessBatch_total openaiCfg scoreCall nowIso items i hall

/-- Closed witness for `C5_theorem`: a one-lead batch whose scoring call
raises, on both variants. -/
theorem C5_theorem_witness :
    (scoreLoop ⟨true, .ok [], .ok [], fun _ => .ok (.raise "boom"), .ok ⟨"", 0⟩⟩
        Option.none 0 [⟨Option.none⟩] 0 []).1.get? 0
      = some ⟨some (icpDefault ("Error: " ++ pyBraceEscape "boom"))⟩ ∧
    ∃ out, enrichProcessBatch true (fun _ => .error "down") "t" [.dict []] 0 = some out ∧
      out.length = ([PyVal.dict []] : List PyVal).length :=
  ⟨((C5_theorem.2.1 ⟨true, .ok [], .ok [], fun _ => .ok (.raise "boom"), .ok ⟨"", 0⟩⟩
      Option.none 0 [⟨Option.none⟩] 0 []).2 0 (by decide) "boom" rfl),
   C5_theorem.2.2.2 true (fun _ => .error "down") "t" [.dict []] 0
     (fun pd hpd => ⟨[], by simpa using hpd, rfl⟩)⟩

/-! ## Persistence (`LeadService._save_leads_to_db`, lines 1697-1775)

Each lead's insert attempt is an oracle outcome: the Supabase call
returning (with or without data) or raising with a message.  The counters
are folded exactly as the per-row `try`/`except` does. -/

/-- Outcome of the per-row body: `execute()` returned (with `result.data`
truthy or not), or an exception with a message. -/
inductive InsertOutcome where
  | ok (hasData : Bool)
  | raise (msg : String)
deriving DecidableEq

/-- The duplicate-key test of the `except` handler (line 1747). -/
def isDuplicateError (msg : String) : Bool :=
  strContains msg.toLower "duplicate key" || strContains msg.toLower "unique constraint"

structure SaveStats where
  total : ℕ
  successful : ℕ
  duplicates : ℕ
  failed : ℕ
deriving DecidableEq

inductive SaveResult where
  | noLeads
  | saved (stats : SaveStats)
deriving DecidableEq

/-- The three counters accumulated by the loop (lines 1713-1751); addition
is commutative so right-fold counts equal the source's left-to-right
increments. -/
def saveCounts : List InsertOutcome → ℕ × ℕ × ℕ
  | [] => (0, 0, 0)
  | o :: rest =>
    match saveCounts rest with
    | (s, d, f) =>
      match o with
      | .ok true => (s + 1, d, f)
      | .ok false => (s, d, f + 1)
      | .raise msg => if isDuplicateError msg then (s, d + 1, f) else (s, d, f + 1)

/-- `LeadService._save_leads_to_db` (lines 1697-1775), abstracted over the
per-row outcomes; the empty-input early return carries no stats. -/
def save_leads_to_db (outcomes : List InsertOutcome) : SaveResult :=
  if outcomes.isEmpty then .noLeads
  else
    match saveCounts outcomes with
    | (s, d, f) => .saved ⟨outcomes.length, s, d, f⟩

def isSuccessOutcome : InsertOutcome → Bool
  | .ok true => true
  | _ => false

def isDupOutcome : InsertOutcome → Bool
  | .raise m => isDuplicateError m
  | _ => false

def isFailOutcome : InsertOutcome → Bool
  | .ok false => true
  | .raise m => !isDuplicateError m
  | _ => false

lemma saveCounts_spec (outcomes : List InsertOutcome) :
    saveCounts outcomes = (outcomes.countP isSuccessOutcome,
      outcomes.countP isDupOutcome, outcomes.countP isFailOutcome) := by
  induction outcomes with
  | nil => rfl
  | cons o rest ih =>
    rw [saveCounts, ih]
    cases o with
    | ok b =>
      cases b <;>
        simp [List.countP_cons, isSuccessOutcome, isDupOutcome, isFailOutcome]
    | raise m =>
      by_cases hd : isDuplicateError m <;>
        simp [List.countP_cons, isSuccessOutcome, isDupOutcome, isFailOutcome, hd]

lemma outcome_counts_partition (outcomes : List InsertOutcome) :
    outcomes.countP isSuccessOutcome + outcomes.countP isDupOutcome
      + outcomes.countP isFailOutcome = outcomes.length := by
  induction outcomes with
  | nil => rfl
  | cons o rest ih =>
    have hone : (if isSuccessOutcome o then 1 else 0) + (if isDupOutcome o then 1 else 0)
        + (if isFailOutcome o then 1 else 0) = 1 := by
      cases o with
      | ok b => cases b <;> simp [isSuccessOutcome, isDupOutcome, isFailOutcome]
      | raise m =>
        by_cases hd : isDuplicateError m <;>
          simp [isSuccessOutcome, isDupOutcome, isFailOutcome, hd]
    simp only [List.countP_cons, List.length_cons]
    omega

/-- C9: for a non-empty batch, each row is attempted individually and
classified into exactly one counter — `result.data` rows into
`successful`, duplicate-key raises into `duplicates` (never `failed`),
every other failure into `failed` — and the returned stats satisfy
`successful + duplicates + failed = total`. -/
theorem C9_theorem (outcomes : List InsertOutcome) (h : outcomes ≠ []) :
    save_leads_to_db outcomes
      = .saved ⟨outcomes.length, outcomes.countP isSuccessOutcome,
          outcomes.countP isDupOutcome, outcomes.countP isFailOutcome⟩ ∧
    outcomes.countP isSuccessOutcome + outcomes.countP isDupOutcome
      + outcomes.countP isFailOutcome = outcomes.length :=
  ⟨by rw [save_leads_to_db, if_neg (by simpa using h), saveCounts_spec],
   outcome_counts_partition outcomes⟩

/-- Closed witness for `C9_theorem`: one successful row, one duplicate-key
raise, one empty-data row, one other raise. -/
theorem C9_theorem_witness :
    save_leads_to_db [.ok true, .raise "duplicate key value violates unique constraint",
        .ok false, .raise "network down"]
      = .saved ⟨4, ([.ok true, .raise "duplicate key value violates unique constraint",
          .ok false, .raise "network down"] : List InsertOutcome).countP isSuccessOutcome,
          ([.ok true, .raise "duplicate key value violates unique constraint",
          .ok false, .raise "network down"] : List InsertOutcome).countP isDupOutcome,
          ([.ok true, .raise "duplicate key value violates unique constraint",
          .ok false, .raise "network down"] : List InsertOutcome).countP isFailOutcome⟩ ∧
    ([.ok true, .raise "duplicate key value violates unique constraint",
        .ok false, .raise "network down"] : List InsertOutcome).countP isSuccessOutcome
      + ([.ok true, .raise "duplicate key value violates unique constraint",
        .ok false, .raise "network down"] : List InsertOutcome).countP isDupOutcome
      + ([.ok true, .raise "duplicate key value violates unique constraint",
        .ok false, .raise "network down"] : List InsertOutcome).countP isFailOutcome = 4 :=
  C9_theorem [.ok true, .raise "duplicate key value violates unique constraint",
    .ok false, .raise "network down"] (by decide)

/-! ## Field mapping (`LeadService.map_profile_fields_to_db`,
lines 1547-1671) -/

/-- The declarative `field_mapping` table (lines 1566-1629). -/
def field_mapping_pairs : List (String × String) :=
  [("fullName", "full_name"),
   ("firstName", "first_name"),
   ("lastName", "last_name"),
   ("jobTitle", "job_title"),
   ("companyName", "company_name"),
   ("companyDomain", "company_domain"),
   ("companyIndustry", "company_industry"),
   ("companySize", "company_size"),
   ("companyWebsite", "company_website"),
   ("companyLinkedIn", "company_linkedin"),
   ("companyLinkedin", "company_linkedin"),
   ("companyTwitter", "company_twitter"),
   ("companyFacebook", "company_facebook"),
   ("companyPhone", "company_phone"),
   ("companyFoundedYear", "company_founded_year"),
   ("companyFoundedIn", "company_founded_year"),
   ("companyGrowth6Month", "company_growth_6month"),
   ("companyGrowth12Month", "company_growth_12month"),
   ("companyGrowth24Month", "company_growth_24month"),
   ("linkedinUrl", "linkedin_url"),
   ("linkedin_url", "linkedin_url"),
   ("emailAddress", "email_address"),
   ("phoneNumber", "phone_number"),
   ("mobileNumber", "phone_number"),
   ("photo_url", "photo_url"),
   ("profilePic", "photo_url"),
   ("profilePicHighQuality", "photo_url"),
   ("work_experience_months", "work_experience_months"),
   ("employment_history", "employment_history"),
   ("intent_strength", "intent_strength"),
   ("show_intent", "show_intent"),
   ("email_domain_catchall", "email_domain_catchall"),
   ("revealed_for_current_team", "revealed_for_current_team"),
   ("icpScore", "icp_score"),
   ("icpGrade", "icp_grade"),
   ("icpPercentage", "icp_percentage"),
   ("icpBreakdown", "icp_breakdown"),
   ("icp_score", "icp_score"),
   ("icp_grade", "icp_grade"),
   ("icp_percentage", "icp_percentage"),
   ("icp_breakdown", "icp_breakdown"),
   ("total_score", "icp_score"),
   ("score_percentage", "icp_percentage"),
   ("grade", "icp_grade"),
   ("breakdown", "icp_breakdown"),
   ("createdAt", "created_at"),
   ("about", "about"),
   ("headline", "headline"),
   ("experiences", "experience"),
   ("addressCountryOnly", "country"),
   ("addressWithCountry", "location"),
   ("addressWithoutCountry", "location")]

/-- `field_mapping.get(key, key)`. -/
def fieldMapping (k : String) : String :=
  match List.find? (fun p => p.1 == k) field_mapping_pairs with
  | some p => p.2
  | Option.none => k

/-- The destination columns treated as integer-typed (lines 1631-1634). -/
def integer_fields : List String :=
  ["work_experience_months", "company_founded_year", "icp_score", "icp_percentage"]

/-- Digit groups separated by single underscores — the shape Python's
`int()` accepts after the optional sign. -/
def digitGroups : List Char → Bool
  | [] => true
  | '_' :: c :: rest => c.isDigit && digitGroups rest
  | ['_'] => false
  | c :: rest => c.isDigit && digitGroups rest

/-- Python's `int(s)` over ASCII input: strip whitespace, optional sign,
digits with single underscores between them; `none` models `ValueError`. -/
def pyIntParse (s : String) : Option ℤ :=
  let t := pyStrip s
  let core : Bool × List Char :=
    match t.toList with
    | '+' :: rest => (false, rest)
    | '-' :: rest => (true, rest)
    | l => (false, l)
  match core with
  | (neg, ds) =>
    if ds ≠ [] ∧ (ds.head?.all Char.isDigit) ∧ digitGroups ds then
      let n : ℤ := (ds.filter (fun c => c ≠ '_')).foldl
        (fun acc c => acc * 10 + ((c.toNat : ℤ) - 48)) 0
      some (if neg then -n else n)
    else Option.none

/-- The value stored for one profile entry whose destination column is
`dbField` (lines 1649-1669): lists/dicts are JSON-dumped, blank values of
integer columns become `None`, strings of integer columns are parsed or
become `None`, other strings are backtick-cleaned, and everything else is
stored as-is. -/
def mappedValue (dbField : String) (v : PyVal) : PyVal :=
  match v with
  | .list l => .str (pyJsonDumps (.list l))
  | .dict d => .str (pyJsonDumps (.dict d))
  | .none => if dbField ∈ integer_fields then .none else .str ""
  | .str s =>
    if s = "" then (if dbField ∈ integer_fields then .none else .str "")
    else if dbField ∈ integer_fields then
      match (if pyStrip s = "" then Option.none else pyIntParse s) with
      | some n => .int n
      | Option.none => .none
    else .str (s.replace "`" "")
  | v => v

/-- Python dict assignment `mapped[k] = v` on an entry list. -/
def dictSet (entries : List (String × PyVal)) (k : String) (v : PyVal) :
    List (String × PyVal) :=
  if dictHas entries k then entries.map (fun p => if p.1 == k then (k, v) else p)
  else entries ++ [(k, v)]

/-- The per-entry step of the mapping loop (lines 1637-1669), including
the profile-picture special cases. -/
def mapEntryStep (profile : List (String × PyVal)) (acc : List (String × PyVal))
    (kv : String × PyVal) : List (String × PyVal) :=
  if kv.1 = "profilePic" ∧ dictHas profile "profilePicHighQuality" = true ∧
      pyFalsy (dictGet profile "profilePicHighQuality" .none) = false then acc
  else
    let dbField :=
      if kv.1 = "profilePicHighQuality" ∧ pyFalsy kv.2 = false ∧
          dictHas profile "profilePic" = true then "photo_url"
      else fieldMapping kv.1
    dictSet acc dbField (mappedValue dbField kv.2)

def mapProfileEntries (profile : List (String × PyVal)) : List (String × PyVal) :=
  profile.foldl (mapEntryStep profile) []

/-- `LeadService.map_profile_fields_to_db` (lines 1547-1671), including the
list-unwrapping prelude (lines 1553-1563). -/
def map_profile_fields_to_db (p : PyVal) : List (String × PyVal) :=
  match p with
  | .dict entries => mapProfileEntries entries
  | .list (.dict entries :: _) => mapProfileEntries entries
  | _ => []

lemma pyJsonDumps_list_ne_empty (l : List PyVal) : pyJsonDumps (.list l) ≠ "" := by
  intro h
  have := congrArg String.length h
  rw [pyJsonDumps] at this
  simp [String.length_append] at this
  exact absurd this.1.1 (by decide)

lemma pyJsonDumps_dict_ne_empty (d : List (String × PyVal)) : pyJsonDumps (.dict d) ≠ "" := by
  intro h
  have := congrArg String.length h
  rw [pyJsonDumps] at this
  simp [String.length_append] at this
  exact absurd this.1.1 (by decide)

lemma mappedValue_int_ne_emptyStr (dbField : String) (v : PyVal)
    (hd : dbField ∈ integer_fields) : mappedValue dbField v ≠ .str "" := by
  cases v with
  | none => simp [mappedValue, hd]
  | bool b => simp [mappedValue]
  | int n => simp [mappedValue]
  | float q => simp [mappedValue]
  | str s =>
    by_cases hs : s = ""
    · simp [mappedValue, hs, hd]
    · rw [mappedValue]
      rw [if_neg hs, if_pos hd]
      rcases hx : (if pyStrip s = "" then Option.none else pyIntParse s) with _ | n <;>
        simp [hx]
  | list l =>
    simp only [mappedValue, ne_eq, PyVal.str.injEq]
    exact pyJsonDumps_list_ne_empty l
  | dict d =>
    simp only [mappedValue, ne_eq, PyVal.str.injEq]
    exact pyJsonDumps_dict_ne_empty d

lemma mem_dictSet {acc : List (String × PyVal)} {k d : String} {v v' : PyVal}
    (h : (d, v') ∈ dictSet acc k v) : (d, v') ∈ acc ∨ (d = k ∧ v' = v) := by
  rw [dictSet] at h
  split at h
  · obtain ⟨p, hp, heq⟩ := List.mem_map.mp h
    by_cases hpk : p.1 = k
    · rw [if_pos (by simpa using hpk)] at heq
      obtain ⟨h1, h2⟩ := Prod.mk.injEq _ _ _ _ |>.mp heq
      exact Or.inr ⟨h1.symm, h2.symm⟩
    · rw [if_neg (by simpa using hpk)] at heq
      left
      exact heq ▸ hp
  · rcases List.mem_append.mp h with h1 | h1
    · exact Or.inl h1
    · right
      simp only [List.mem_singleton] at h1
      exact ⟨(Prod.mk.injEq _ _ _ _ |>.mp h1).1, (Prod.mk.injEq _ _ _ _ |>.mp h1).2⟩

lemma mapEntries_shape (profile : List (String × PyVal)) :
    ∀ (entries : List (String × PyVal)) (acc : List (String × PyVal)),
    (∀ d v', (d, v') ∈ acc → ∃ v, v' = mappedValue d v) →
    ∀ d v', (d, v') ∈ entries.foldl (mapEntryStep profile) acc →
      ∃ v, v' = mappedValue d v := by
  intro entries
  induction entries with
  | nil => intro acc hacc d v' h; exact hacc d v' h
  | cons kv rest ih =>
    intro acc hacc d v' h
    refine ih (mapEntryStep profile acc kv) ?_ d v' h
    intro d0 v0 h0
    rw [mapEntryStep] at h0
    split at h0
    · exact hacc d0 v0 h0
    · rcases mem_dictSet h0 with h1 | ⟨rfl, rfl⟩
      · exact hacc d0 v0 h1
      · exact ⟨kv.2, rfl⟩

/-- C10: every field whose destination column is integer-typed
(`work_experience_months`, `company_founded_year`, `icp_score`,
`icp_percentage`) is mapped to `None` whenever the source value is blank —
`None`, the empty string, or a string `int()` rejects — and no value a
mapped profile stores under an integer column is ever the empty string. -/
theorem C10_theorem :
    (∀ (dbField : String) (v : PyVal), dbField ∈ integer_fields →
      (v = .none ∨ v = .str "" ∨ (∃ s, v = .str s ∧ pyIntParse s = Option.none)) →
      mappedValue dbField v = .none) ∧
    (∀ (p : PyVal) (d : String) (v' : PyVal),
      (d, v') ∈ map_profile_fields_to_db p → d ∈ integer_fields → v' ≠ .str "") := by
  constructor
  · intro dbField v hd hblank
    rcases hblank with rfl | rfl | ⟨s, rfl, hparse⟩
    · simp [mappedValue, hd]
    · simp [mappedValue, hd]
    · by_cases hs : s = ""
      · simp [mappedValue, hs, hd]
      · rw [mappedValue, if_neg hs, if_pos hd]
        by_cases ht : s.trim = "" <;> simp [ht, hparse]
  · intro p d v' hmem hd
    have hshape : ∃ v, v' = mappedValue d v := by
      match p with
      | .dict entries =>
        exact mapEntries_shape entries entries [] (by intro d0 v0 h0; cases h0) d v' hmem
      | .list (.dict entries :: _) =>
        exact mapEntries_shape entries entries [] (by intro d0 v0 h0; cases h0) d v' hmem
      | .list [] => cases hmem
      | .list (.none :: _) => cases hmem
      | .list (.bool b :: _) => cases hmem
      | .list (.int n :: _) => cases hmem
      | .list (.float q :: _) => cases hmem
      | .list (.str s :: _) => cases hmem
      | .list (.list l :: _) => cases hmem
      | .none => cases hmem
      | .bool b => cases hmem
      | .int n => cases hmem
      | .float q => cases hmem
      | .str s => cases hmem
    obtain ⟨v, rfl⟩ := hshape
    exact mappedValue_int_ne_emptyStr d v hd

/-- Closed witness for `C10_theorem`: the non-numeric string "abc" under
`icp_score` maps to `None`, and a profile with a blank
`work_experience_months` stores `None`, not the empty string. -/
theorem C10_theorem_witness :
    mappedValue "icp_score" (.str "abc") = .none ∧
    (PyVal.none ≠ PyVal.str "") :=
  ⟨C10_theorem.1 "icp_score" (.str "abc") (by simp [integer_fields])
      (Or.inr (Or.inr ⟨"abc", rfl, by decide⟩)),
   C10_theorem.2 (.dict [("work_experience_months", .str "")])
     "work_experience_months" .none
     (by rw [show map_profile_fields_to_db (.dict [("work_experience_months", .str "")])
           = [("work_experience_months", .none)] from rfl]
         exact List.mem_singleton.mpr rfl)
     (by simp [integer_fields])⟩

end Leadgen
